import Mathlib

/-!
# usb-keypad: matrix scanner, debounce/repeat engine and dispatch loop

A shallow embedding of `src/main.cpp` (a 4x4 matrix keypad turned into a USB
HID keyboard) together with theorems about the scanner `kbscan`, the
timer-tick engine `press_handler` and one iteration of the `while (forever)`
loop of `main`.

Conventions of the embedding.

* A C `char` is a `Nat` (its character code); the program only copies and
  compares `char` values, it never does arithmetic on them.
* `unsigned int tick_count` is a `Nat` kept below `2^32`: the increment is
  taken modulo `4294967296`.
* The global variables are the fields of `State`. The two key tables are
  written once by `init_map` and never again, so they travel as a read-only
  `KeyMap` argument.
* The hardware is explicit: the four row outputs are the `Rows` record, the
  buttons held down are a `Pressed` matrix, and the HID endpoint is the list
  `State.sent` of operations performed so far.
-/

namespace UsbKeypad

/-! ## Constants of `main.cpp` -/

/-- Debounce threshold, `#define DEBOUNCE_NUM 2`. -/
def DEBOUNCE_NUM : Nat := 2
/-- First-repeat threshold, `#define FIRST_WAIT_NUM 100`. -/
def FIRST_WAIT_NUM : Nat := 100
/-- Next-repeat threshold, `#define NEXT_WAIT_NUM 1`. -/
def NEXT_WAIT_NUM : Nat := 1

/-- Engine state Idle, `#define BSTATE_IDLE 0`. -/
def BSTATE_IDLE : Nat := 0
/-- Engine state Debouncing, `#define BSTATE_FIRST 1`. -/
def BSTATE_FIRST : Nat := 1
/-- Engine state WaitingForFirstRepeat, `#define BSTATE_FIRST_WAIT 2`. -/
def BSTATE_FIRST_WAIT : Nat := 2
/-- Engine state WaitingForNextRepeat, `#define BSTATE_NEXT_WAIT 3`. -/
def BSTATE_NEXT_WAIT : Nat := 3

/-- Number of values of an `unsigned int` on the target (32 bits). -/
def UINT_MOD : Nat := 4294967296

/-! ## Key map -/

/-- The two parallel 4x4 tables `charmap` and `modifiermap`. -/
structure KeyMap where
  charmap : Nat → Nat → Nat
  modifiermap : Nat → Nat → Nat

/-- Table `chardefault`, as character codes:
`{'1','2','3','a'}, {'4','5','6','B'}, {'7','8','9','C'}, {'*','0','#','D'}`. -/
def chardefault (r c : Nat) : Nat :=
  (([[49, 50, 51, 97],
     [52, 53, 54, 66],
     [55, 56, 57, 67],
     [42, 48, 35, 68]] : List (List Nat)).getD r []).getD c 0

/-- Table `modifierdefault`. The value of `KEY_CTRL` comes from the USB
keyboard library header, which is not part of the sources; it is a
parameter. -/
def modifierdefault (KEY_CTRL : Nat) (r c : Nat) : Nat :=
  (([[0, 0, 0, KEY_CTRL],
     [0, 0, 0, 0],
     [0, 0, 0, 0],
     [0, 0, 0, 0]] : List (List Nat)).getD r []).getD c 0

/-- Function `init_map`: both default tables are copied whole (16 bytes
each) into `charmap` and `modifiermap`. -/
def init_map (KEY_CTRL : Nat) : KeyMap :=
  { charmap := chardefault, modifiermap := modifierdefault KEY_CTRL }

/-! ## Hardware: row outputs, buttons, column inputs -/

/-- Levels last written to the four row outputs `row[0..3]`. -/
structure Rows where
  r0 : Nat
  r1 : Nat
  r2 : Nat
  r3 : Nat
  deriving DecidableEq, Repr

namespace Rows

/-- All four rows high: the state left by the set-up loop of `main`. -/
def idle : Rows := { r0 := 1, r1 := 1, r2 := 1, r3 := 1 }

/-- Effect of `row[i]->write(v)`. -/
def write (rs : Rows) (i v : Nat) : Rows :=
  match i with
  | 0 => { rs with r0 := v }
  | 1 => { rs with r1 := v }
  | 2 => { rs with r2 := v }
  | 3 => { rs with r3 := v }
  | _ => rs

/-- Level currently driven on row `i`. -/
def level (rs : Rows) (i : Nat) : Nat :=
  match i with
  | 0 => rs.r0
  | 1 => rs.r1
  | 2 => rs.r2
  | 3 => rs.r3
  | _ => 1

end Rows

/-- The buttons held down: `env r c` is true when the button at row `r`,
column `c` closes its contact. -/
abbrev Pressed := Nat → Nat → Bool

/-- Value of `col[c]->read()`. The keypad itself is outside the program; its
electrical behaviour is the one the design document gives for the column
inputs: a column is pulled up and reads `0` exactly when some row that is
driven low is connected to it by a closed button. -/
def colRead (env : Pressed) (rs : Rows) (c : Nat) : Nat :=
  if (List.range 4).any (fun r => rs.level r == 0 && env r c) then 0 else 1

/-! ## Matrix scanner -/

/-- Local state of `kbscan`: the row outputs, the local `ret`, and the cell
`*modifier` of the caller. -/
structure Scan where
  rows : Rows
  ret : Nat
  modifier : Nat
  deriving DecidableEq, Repr

/-- Body of the inner `for (col_idx ...)` loop of `kbscan`. -/
def kbscan_col (km : KeyMap) (env : Pressed) (row_idx : Nat) (st : Scan) (col_idx : Nat) :
    Scan :=
  if colRead env st.rows col_idx = 0 then
    { st with ret := km.charmap row_idx col_idx, modifier := km.modifiermap row_idx col_idx }
  else st

/-- Body of the outer `for (row_idx ...)` loop of `kbscan`: drive the row
low, sweep the four columns, drive the row high again. -/
def kbscan_row (km : KeyMap) (env : Pressed) (st : Scan) (row_idx : Nat) : Scan :=
  let st1 : Scan := { st with rows := st.rows.write row_idx 0 }
  let st2 : Scan := (List.range 4).foldl (kbscan_col km env row_idx) st1
  { st2 with rows := st2.rows.write row_idx 1 }

/-- Function `kbscan`. `rows` are the row outputs on entry and `modifier` is
the content of the caller's `*modifier` on entry; the result carries the row
outputs on return, the returned character and the final `*modifier`. -/
def kbscan (km : KeyMap) (env : Pressed) (rows : Rows) (modifier : Nat) : Scan :=
  (List.range 4).foldl (kbscan_row km env) { rows := rows, ret := 0, modifier := modifier }

/-! ## Program state and HID transport -/

/-- One operation on the HID keyboard endpoint `kb`. -/
inductive HidOp where
  /-- Call `kb.printf(str)`; `str` is the C string passed (bytes before the NUL). -/
  | printf (str : List Nat)
  /-- Call `kb.keyCode(key, modifier)`. -/
  | keyCode (key modifier : Nat)
  deriving DecidableEq, Repr

/-- Bytes of a C string stored in a buffer: those before the first NUL. -/
def cstr (buf : List Nat) : List Nat :=
  buf.takeWhile (fun b => b != 0)

/-- The global variables of `main.cpp`, the local `modifier` of `main`, the
row outputs, whether `press_ticker` is attached, and the HID operations
performed so far. `tstring[1]` is written once (`'\0'`) and is not a field. -/
structure State where
  isattached : Nat
  dosend : Nat
  keypad_event : Nat
  keyval_store : Nat
  modifier_store : Nat
  bstate : Nat
  tick_count : Nat
  tstring0 : Nat
  modifier : Nat
  rows : Rows
  ticker : Bool
  sent : List HidOp
  deriving DecidableEq, Repr

/-- Function `send_kb`. -/
def send_kb (s : State) (keyval modifier : Nat) : State :=
  match modifier with
  | 0 =>
    let s1 : State := { s with tstring0 := keyval }
    { s1 with sent := s1.sent ++ [HidOp.printf (cstr [s1.tstring0, 0])] }
  | _ => { s with sent := s.sent ++ [HidOp.keyCode keyval modifier] }

/-! ## Debounce/repeat engine -/

/-- Function `press_handler`, the ticker callback. Its local `modifier` is
uninitialised and never read; the scan is started with `0` in it. -/
def press_handler (km : KeyMap) (env : Pressed) (s : State) : State :=
  let sc := kbscan km env s.rows 0
  let tempkey := sc.ret
  let s0 : State := { s with rows := sc.rows }
  let s1 : State :=
    match s0.bstate with
    | 0 => { s0 with tick_count := 0, bstate := BSTATE_FIRST }
    | 1 =>
      if tempkey ≠ s0.keyval_store then
        { s0 with bstate := BSTATE_IDLE, ticker := false, isattached := 0 }
      else if s0.tick_count ≥ DEBOUNCE_NUM then
        { s0 with tick_count := 0, bstate := BSTATE_FIRST_WAIT }
      else s0
    | 2 =>
      if tempkey ≠ s0.keyval_store then
        { s0 with bstate := BSTATE_IDLE, ticker := false, isattached := 0 }
      else if s0.tick_count ≥ FIRST_WAIT_NUM then
        { s0 with tstring0 := s0.keyval_store, tick_count := 0,
                  bstate := BSTATE_NEXT_WAIT, dosend := 1 }
      else s0
    | 3 =>
      if tempkey ≠ s0.keyval_store then
        { s0 with bstate := BSTATE_IDLE, ticker := false, isattached := 0 }
      else if s0.tick_count ≥ NEXT_WAIT_NUM then
        { s0 with tstring0 := s0.keyval_store, tick_count := 0, dosend := 1 }
      else s0
    | _ => s0
  { s1 with tick_count := (s1.tick_count + 1) % UINT_MOD }

/-! ## Dispatch loop -/

/-- State on entry to the `while (forever)` loop of `main`: the assignments
and the set-up loop of `main` on top of zero-initialised globals. The local
`modifier` of `main` is uninitialised; `m0` is its content. -/
def State.init (m0 : Nat) : State :=
  { isattached := 0, dosend := 0, keypad_event := 0, keyval_store := 0,
    modifier_store := 0, bstate := BSTATE_IDLE, tick_count := 0, tstring0 := 0,
    modifier := m0, rows := Rows.idle, ticker := false, sent := [] }

/-- One iteration of the `while (forever)` loop of `main`, run without a
tick in between, while the buttons `env` are held. -/
def main_loop_iter (km : KeyMap) (env : Pressed) (s : State) : State :=
  let s1 : State :=
    if s.dosend ≠ 0 then
      { send_kb s s.keyval_store s.modifier_store with dosend := 0 }
    else s
  if s1.isattached = 0 ∧ s1.bstate = BSTATE_IDLE then
    let sc := kbscan km env s1.rows s1.modifier
    let s2 : State :=
      { s1 with rows := sc.rows, modifier := sc.modifier, keypad_event := sc.ret }
    if s2.keypad_event ≠ 0 then
      let s3 : State := { s2 with isattached := 1 }
      let s4 : State := { s3 with keyval_store := s3.keypad_event }
      let s5 : State := { s4 with modifier_store := s4.modifier }
      let s6 : State := send_kb s5 s5.keyval_store s5.modifier_store
      { s6 with ticker := true }
    else s2
  else s1

/-! ## Schedules and reachable states -/

/-- One scheduling event: a whole loop iteration or a whole timer tick,
each with the buttons held during it. -/
inductive Step where
  | loop (env : Pressed)
  | tick (env : Pressed)

/-- Effect of one scheduling event. The ticker calls `press_handler` only
while it is attached. -/
def step (km : KeyMap) (s : State) : Step → State
  | Step.loop env => main_loop_iter km env s
  | Step.tick env => if s.ticker then press_handler km env s else s

/-- Run a schedule from a state. -/
def run (km : KeyMap) (sched : List Step) (s : State) : State :=
  sched.foldl (step km) s

/-- States reachable from the start of the main loop by whole loop
iterations and whole ticks (a tick only while the ticker is attached). -/
inductive Reachable (km : KeyMap) : State → Prop where
  | init (m0 : Nat) : Reachable km (State.init m0)
  | loop (env : Pressed) {s : State} :
      Reachable km s → Reachable km (main_loop_iter km env s)
  | tick (env : Pressed) {s : State} :
      Reachable km s → s.ticker = true → Reachable km (press_handler km env s)

/-- Run consecutive ticks, one per element of `envs`. -/
def runTicks (km : KeyMap) (envs : List Pressed) (s : State) : State :=
  envs.foldl (fun st env => press_handler km env st) s

/-- The character a scan started in state `s` returns. -/
def scanKey (km : KeyMap) (env : Pressed) (s : State) : Nat :=
  (kbscan km env s.rows 0).ret

/-- The latched key is seen by the scan of every tick of `envs`. -/
def heldAll (km : KeyMap) : List Pressed → State → Prop
  | [], _ => True
  | env :: envs, s =>
    scanKey km env s = s.keyval_store ∧ heldAll km envs (press_handler km env s)

/-- Exactly the one button at `(r, c)` is held down. -/
def only (r c : Nat) : Pressed := fun i j => i == r && j == c

/-- No button is held down. -/
def nokey : Pressed := fun _ _ => false

/-! ## Concrete scenarios used by the closed theorems -/

/-- The default key map with `KEY_CTRL = 1`. -/
def km1 : KeyMap := init_map 1

/-- The button of the character `'5'` in the default map: row 1, column 1. -/
def five : Pressed := only 1 1

/-- The buttons are: `five` pressed while the loop polls, released before
the second tick. The state is the one after that second tick. -/
def afterShortPress : State :=
  run km1 [Step.loop five, Step.tick nokey, Step.tick nokey] (State.init 0)

/-- Schedule of a held button: the loop iteration that detects the press,
then `n` times a tick followed by a loop iteration. -/
def holdSched (env : Pressed) : Nat → List Step
  | 0 => [Step.loop env]
  | n + 1 => holdSched env n ++ [Step.tick env, Step.loop env]

/-- The state `holdSched five n` leads to from the initial state, written
out: the engine state, the counter and the number of transmissions as
functions of the number `n` of ticks since the press. -/
def heldState (n : Nat) : State :=
  { isattached := 1, dosend := 0, keypad_event := 53, keyval_store := 53,
    modifier_store := 0,
    bstate := if n = 0 then BSTATE_IDLE else if n < 3 then BSTATE_FIRST
              else if n < 103 then BSTATE_FIRST_WAIT else BSTATE_NEXT_WAIT,
    tick_count := if n < 3 then n else if n < 103 then n - 2 else 1,
    tstring0 := 53, modifier := 0, rows := Rows.idle, ticker := true,
    sent := List.replicate (if n < 103 then 1 else n - 101) (HidOp.printf [53]) }

/-- The state right after the loop has detected the press of `five` from the
initial state: key latched and sent, ticker attached, engine still Idle. -/
def pressedFive : State := main_loop_iter km1 five (State.init 0)

/-- The state right after the 103rd tick of a held `five`: the tick has
raised the first repeat request and the loop has not run since. -/
def pendingRepeat : State := press_handler km1 five (heldState 102)

/-- Two buttons held together: `(0, 3)`, mapped to `'a'` with `KEY_CTRL`,
and `(2, 1)`, mapped to `'8'` with no modifier. -/
def twoKeys : Pressed := fun i j => only 0 3 i j || only 2 1 i j

/-! ## Further definitions: the one HID operation of a send, the logged scan -/

/-- The HID operation `send_kb(k, m)` performs: `kb.printf` of the string in
`tstring` after `tstring[0] = k` when `m` is `0`, `kb.keyCode(k, m)`
otherwise. -/
def hidOp (k m : Nat) : HidOp :=
  if m = 0 then HidOp.printf (cstr [k, 0]) else HidOp.keyCode k m

/-- One `col[col_idx]->read()` of a scan: the row being scanned, the column
read, and the levels of the row outputs at that moment. -/
structure ColRead where
  row_idx : Nat
  col_idx : Nat
  rows : Rows
  deriving DecidableEq, Repr

/-- State of `kbscan` together with the column reads done so far. -/
structure ScanLog where
  st : Scan
  reads : List ColRead
  deriving DecidableEq, Repr

/-- Body of the inner loop of `kbscan`, recording the column read. -/
def kbscan_col_log (km : KeyMap) (env : Pressed) (row_idx : Nat) (sl : ScanLog)
    (col_idx : Nat) : ScanLog :=
  { st := kbscan_col km env row_idx sl.st col_idx,
    reads := sl.reads ++ [{ row_idx := row_idx, col_idx := col_idx, rows := sl.st.rows }] }

/-- Body of the outer loop of `kbscan`, recording the column reads. -/
def kbscan_row_log (km : KeyMap) (env : Pressed) (sl : ScanLog) (row_idx : Nat) : ScanLog :=
  let sl1 : ScanLog := { sl with st := { sl.st with rows := sl.st.rows.write row_idx 0 } }
  let sl2 : ScanLog := (List.range 4).foldl (kbscan_col_log km env row_idx) sl1
  { sl2 with st := { sl2.st with rows := sl2.st.rows.write row_idx 1 } }

/-- Function `kbscan` with its column reads recorded in order. -/
def kbscan_log (km : KeyMap) (env : Pressed) (rows : Rows) (modifier : Nat) : ScanLog :=
  (List.range 4).foldl (kbscan_row_log km env)
    { st := { rows := rows, ret := 0, modifier := modifier }, reads := [] }

/-- The button of `'a'` with `KEY_CTRL` in the default map: row 0, column 3. -/
def ctrlA : Pressed := only 0 3

/-- A key map in which two cells carry the same character: the default
tables with `'a'` (code 97) also at row 0, column 0, where the modifier is
`0`; row 0, column 3 keeps `'a'` with `KEY_CTRL = 1`. -/
def dupMap : KeyMap :=
  { charmap := fun r c => if r = 0 ∧ c = 0 then 97 else chardefault r c,
    modifiermap := modifierdefault 1 }

/-- With `dupMap`: the button at `(0, 0)` has been latched as `('a', 0)` and
the Idle tick has passed. -/
def latchedPlainA : State :=
  run dupMap [Step.loop (only 0 0), Step.tick (only 0 0)] (State.init 0)

/-- The button `five` released while WaitingForFirstRepeat with the counter
at the threshold: the state after the tick that sees the release. -/
def releasedLate : State := press_handler km1 nokey (heldState 102)

/-- Schedule of a short press, first part: the loop iteration that detects
the press of `ctrlA`, then any loop iterations. -/
def shortPressA (envsA : List Pressed) : List Step :=
  Step.loop ctrlA :: envsA.map Step.loop

/-- Schedule of a short press, up to the second tick: the first part, the
first tick (whatever the buttons are then), and any loop iterations. -/
def shortPressB (envsA : List Pressed) (e1 : Pressed) (envsB : List Pressed) : List Step :=
  shortPressA envsA ++ Step.tick e1 :: envsB.map Step.loop

/-- Schedule of a short press, whole: up to the second tick, then the second
tick with the button released, then `n` loop iterations with no button down. -/
def shortPressC (envsA : List Pressed) (e1 : Pressed) (envsB : List Pressed) (n : Nat) :
    List Step :=
  shortPressB envsA e1 envsB ++ Step.tick nokey :: List.replicate n (Step.loop nokey)

/-- Two states differ at most in `tick_count`, `keyval_store` and
`modifier_store`. -/
def staleOnly (s1 s2 : State) : Prop :=
  s2 = { s1 with tick_count := s2.tick_count, keyval_store := s2.keyval_store,
                 modifier_store := s2.modifier_store }

/-- Relation kept by two runs started from dormant states that differ only
in leftovers: still dormant and differing only in leftovers; or a new press
latched, the first tick not yet taken, differing only in `tick_count`; or
equal. -/
def pressRel (t1 t2 : State) : Prop :=
  (t1.isattached = 0 ∧ t1.bstate = BSTATE_IDLE ∧ t1.dosend = 0 ∧ t1.ticker = false ∧
      staleOnly t1 t2) ∨
    (t1.isattached = 1 ∧ t1.bstate = BSTATE_IDLE ∧ t1.dosend = 0 ∧ t1.ticker = true ∧
      t2 = { t1 with tick_count := t2.tick_count }) ∨
    t1 = t2

/-- The button `five` pressed, seen by two ticks, and released before the
third: the state after that third tick. It differs from `afterShortPress`
only in `tick_count`. -/
def afterLongerPress : State :=
  run km1 [Step.loop five, Step.tick five, Step.tick five, Step.tick nokey] (State.init 0)

/-- A new press of `ctrlA`: detected by the loop, then one tick, then one
more loop iteration. -/
def newPress : List Step := [Step.loop ctrlA, Step.tick ctrlA, Step.loop ctrlA]

/-! ## The scanner on idle rows -/

/-- While only row `i` is driven low, column `c` reads low exactly when the
button at `(i, c)` is down. -/
theorem colRead_one_low (env : Pressed) (i c : Nat) (hi : i < 4) :
    colRead env (Rows.idle.write i 0) c = if env i c = true then 0 else 1 := by
  interval_cases i <;>
    simp [colRead, List.range, List.range.loop, Rows.idle, Rows.write, Rows.level]

/-- One column step while only row `i` is driven low. -/
theorem kbscan_col_one_low (km : KeyMap) (env : Pressed) (i c a b : Nat) (hi : i < 4) :
    kbscan_col km env i { rows := Rows.idle.write i 0, ret := a, modifier := b } c =
      if env i c = true then
        { rows := Rows.idle.write i 0, ret := km.charmap i c, modifier := km.modifiermap i c }
      else { rows := Rows.idle.write i 0, ret := a, modifier := b } := by
  simp only [kbscan_col, colRead_one_low env i c hi]
  cases env i c <;> simp

/-- One row step started with all rows high: the highest column whose button
is down in row `i` decides, and the rows are all high again afterwards. -/
theorem kbscan_row_idle (km : KeyMap) (env : Pressed) (st : Scan) (i : Nat) (hi : i < 4)
    (hst : st.rows = Rows.idle) :
    kbscan_row km env st i =
      if env i 3 = true then
        { rows := Rows.idle, ret := km.charmap i 3, modifier := km.modifiermap i 3 }
      else if env i 2 = true then
        { rows := Rows.idle, ret := km.charmap i 2, modifier := km.modifiermap i 2 }
      else if env i 1 = true then
        { rows := Rows.idle, ret := km.charmap i 1, modifier := km.modifiermap i 1 }
      else if env i 0 = true then
        { rows := Rows.idle, ret := km.charmap i 0, modifier := km.modifiermap i 0 }
      else st := by
  obtain ⟨rows, ret, m⟩ := st
  simp only at hst
  subst hst
  have hw : (Rows.idle.write i 0).write i 1 = Rows.idle := by
    interval_cases i <;> rfl
  cases h0 : env i 0 <;> cases h1 : env i 1 <;> cases h2 : env i 2 <;> cases h3 : env i 3 <;>
    simp [kbscan_row, List.range, List.range.loop, List.foldl, kbscan_col_one_low km env i _ _ _ hi,
      h0, h1, h2, h3, hw]

/-- A row step started with all rows high ends with all rows high. -/
theorem kbscan_row_rows (km : KeyMap) (env : Pressed) (st : Scan) (i : Nat) (hi : i < 4)
    (hst : st.rows = Rows.idle) : (kbscan_row km env st i).rows = Rows.idle := by
  rw [kbscan_row_idle km env st i hi hst]
  split_ifs <;> first | rfl | exact hst

/-- A row in which no button is down leaves the scan result as it was. -/
theorem kbscan_row_none (km : KeyMap) (env : Pressed) (st : Scan) (i : Nat) (hi : i < 4)
    (hst : st.rows = Rows.idle) (hn : ∀ j, j < 4 → env i j = false) :
    kbscan_row km env st i = st := by
  rw [kbscan_row_idle km env st i hi hst]
  simp [hn 0, hn 1, hn 2, hn 3]

/-- A row in which `c` is the highest column with a button down yields the
mapping of cell `(i, c)`. -/
theorem kbscan_row_last (km : KeyMap) (env : Pressed) (st : Scan) (i c : Nat) (hi : i < 4)
    (hst : st.rows = Rows.idle) (hc : c < 4) (hp : env i c = true)
    (hmax : ∀ j, j < 4 → env i j = true → j ≤ c) :
    kbscan_row km env st i =
      { rows := Rows.idle, ret := km.charmap i c, modifier := km.modifiermap i c } := by
  rw [kbscan_row_idle km env st i hi hst]
  have hf : ∀ j, j < 4 → c < j → env i j = false := by
    intro j hj hcj
    by_contra hne
    have := hmax j hj (by simpa using hne)
    omega
  interval_cases c <;> simp [hp, hf 1, hf 2, hf 3]

/-- Started with all rows high, the scan returns the mapping of the button
that is down and is last in row-major, column-minor order. -/
theorem kbscan_last (km : KeyMap) (env : Pressed) (m0 r c : Nat) (hr : r < 4) (hc : c < 4)
    (hp : env r c = true)
    (hmax : ∀ i j, i < 4 → j < 4 → env i j = true → i < r ∨ (i = r ∧ j ≤ c)) :
    kbscan km env Rows.idle m0 =
      { rows := Rows.idle, ret := km.charmap r c, modifier := km.modifiermap r c } := by
  have hnone : ∀ i, i < 4 → r < i → ∀ j, j < 4 → env i j = false := by
    intro i hi hri j hj
    by_contra hne
    have := hmax i j hi hj (by simpa using hne)
    omega
  have hrow : ∀ j, j < 4 → env r j = true → j ≤ c := by
    intro j hj hpj
    have := hmax r j hr hj hpj
    omega
  have R0 := kbscan_row_rows km env { rows := Rows.idle, ret := 0, modifier := m0 } 0
    (by norm_num) rfl
  have R1 := kbscan_row_rows km env _ 1 (by norm_num) R0
  have R2 := kbscan_row_rows km env _ 2 (by norm_num) R1
  simp only [kbscan, List.range, List.range.loop, List.foldl]
  interval_cases r
  · rw [kbscan_row_none km env _ 3 (by norm_num) R2 (hnone 3 (by norm_num) (by norm_num)),
      kbscan_row_none km env _ 2 (by norm_num) R1 (hnone 2 (by norm_num) (by norm_num)),
      kbscan_row_none km env _ 1 (by norm_num) R0 (hnone 1 (by norm_num) (by norm_num)),
      kbscan_row_last km env _ 0 c (by norm_num) rfl hc hp hrow]
  · rw [kbscan_row_none km env _ 3 (by norm_num) R2 (hnone 3 (by norm_num) (by norm_num)),
      kbscan_row_none km env _ 2 (by norm_num) R1 (hnone 2 (by norm_num) (by norm_num)),
      kbscan_row_last km env _ 1 c (by norm_num) R0 hc hp hrow]
  · rw [kbscan_row_none km env _ 3 (by norm_num) R2 (hnone 3 (by norm_num) (by norm_num)),
      kbscan_row_last km env _ 2 c (by norm_num) R1 hc hp hrow]
  · rw [kbscan_row_last km env _ 3 c (by norm_num) R2 hc hp hrow]

/-- Among the buttons that are down there is a last one in row-major,
column-minor order. -/
theorem exists_last_pressed (env : Pressed)
    (hne : ∃ r c, r < 4 ∧ c < 4 ∧ env r c = true) :
    ∃ r c, r < 4 ∧ c < 4 ∧ env r c = true ∧
      ∀ i j, i < 4 → j < 4 → env i j = true → i < r ∨ (i = r ∧ j ≤ c) := by
  obtain ⟨r0, c0, hr0, hc0, hp0⟩ := hne
  let P : Nat → Prop := fun k => env (k / 4) (k % 4) = true
  have hP0 : P (4 * r0 + c0) := by
    show env ((4 * r0 + c0) / 4) ((4 * r0 + c0) % 4) = true
    have e1 : (4 * r0 + c0) / 4 = r0 := by omega
    have e2 : (4 * r0 + c0) % 4 = c0 := by omega
    rw [e1, e2]; exact hp0
  have hspec : P (Nat.findGreatest P 15) :=
    Nat.findGreatest_spec (show 4 * r0 + c0 ≤ 15 by omega) hP0
  have hle : Nat.findGreatest P 15 ≤ 15 := Nat.findGreatest_le 15
  refine ⟨Nat.findGreatest P 15 / 4, Nat.findGreatest P 15 % 4, by omega, by omega, hspec, ?_⟩
  intro i j hi hj hp
  have hPij : P (4 * i + j) := by
    show env ((4 * i + j) / 4) ((4 * i + j) % 4) = true
    have e1 : (4 * i + j) / 4 = i := by omega
    have e2 : (4 * i + j) % 4 = j := by omega
    rw [e1, e2]; exact hp
  have := Nat.le_findGreatest (show 4 * i + j ≤ 15 by omega) hPij
  omega

/-- Whatever the rows on entry, a column step does not touch the rows. -/
theorem kbscan_col_rows (km : KeyMap) (env : Pressed) (i : Nat) (st : Scan) (c : Nat) :
    (kbscan_col km env i st c).rows = st.rows := by
  unfold kbscan_col
  split_ifs <;> rfl

/-- Whatever the rows on entry, a row step ends with its row written high. -/
theorem kbscan_row_rows_any (km : KeyMap) (env : Pressed) (st : Scan) (i : Nat) :
    (kbscan_row km env st i).rows = (st.rows.write i 0).write i 1 := by
  simp [kbscan_row, List.range, List.range.loop, List.foldl, kbscan_col_rows]

/-- Whatever the rows on entry, all four rows are high when `kbscan` returns. -/
theorem kbscan_rows (km : KeyMap) (env : Pressed) (rs : Rows) (m0 : Nat) :
    (kbscan km env rs m0).rows = Rows.idle := by
  simp only [kbscan, List.range, List.range.loop, List.foldl, kbscan_row_rows_any]
  rfl

/-- With no button down a column step changes nothing, whatever the rows. -/
theorem kbscan_col_nokey (km : KeyMap) (env : Pressed) (i : Nat) (st : Scan) (c : Nat)
    (hn : ∀ r j, r < 4 → j < 4 → env r j = false) (hc : c < 4) :
    kbscan_col km env i st c = st := by
  simp [kbscan_col, colRead, List.range, List.range.loop, hn 0 c, hn 1 c, hn 2 c, hn 3 c, hc]

/-- With no button down a row step changes only the rows. -/
theorem kbscan_row_nokey (km : KeyMap) (env : Pressed) (st : Scan) (i : Nat)
    (hn : ∀ r j, r < 4 → j < 4 → env r j = false) :
    kbscan_row km env st i = { st with rows := (st.rows.write i 0).write i 1 } := by
  simp [kbscan_row, List.range, List.range.loop, List.foldl, kbscan_col_nokey km env i _ _ hn]

/-- With no button down the scan returns `0` and leaves `*modifier` alone,
whatever the rows on entry. -/
theorem kbscan_nokey (km : KeyMap) (env : Pressed) (rs : Rows) (m0 : Nat)
    (hn : ∀ r j, r < 4 → j < 4 → env r j = false) :
    kbscan km env rs m0 = { rows := Rows.idle, ret := 0, modifier := m0 } := by
  simp only [kbscan, List.range, List.range.loop, List.foldl, kbscan_row_nokey km env _ _ hn]
  rfl

/-! ## One tick of the engine, case by case -/

section Engine

attribute [local irreducible] kbscan

/-- A tick ends with all rows high. -/
theorem press_handler_rows (km : KeyMap) (env : Pressed) (s : State) :
    (press_handler km env s).rows = Rows.idle := by
  have h := kbscan_rows km env s.rows 0
  unfold press_handler
  simp only []
  split <;> (try split_ifs) <;> simp [h]

/-- A tick in Idle: the counter is reset and then incremented. -/
theorem press_handler_idle (km : KeyMap) (env : Pressed) (s : State)
    (hb : s.bstate = BSTATE_IDLE) :
    press_handler km env s =
      { s with rows := Rows.idle, tick_count := 1, bstate := BSTATE_FIRST } := by
  have h := kbscan_rows km env s.rows 0
  simp only [BSTATE_IDLE] at hb
  simp [press_handler, hb, h, UINT_MOD]

/-- A tick in a non-Idle state whose scan differs from the latched key. -/
theorem press_handler_release (km : KeyMap) (env : Pressed) (s : State)
    (hb : s.bstate = BSTATE_FIRST ∨ s.bstate = BSTATE_FIRST_WAIT ∨ s.bstate = BSTATE_NEXT_WAIT)
    (hm : scanKey km env s ≠ s.keyval_store) :
    press_handler km env s =
      { s with rows := Rows.idle, bstate := BSTATE_IDLE, ticker := false, isattached := 0,
               tick_count := (s.tick_count + 1) % UINT_MOD } := by
  have h := kbscan_rows km env s.rows 0
  simp only [scanKey] at hm
  simp only [BSTATE_FIRST, BSTATE_FIRST_WAIT, BSTATE_NEXT_WAIT] at hb
  rcases hb with hb | hb | hb <;> simp [press_handler, hb, h, hm]

/-- A Debouncing tick with a matching scan below the debounce threshold. -/
theorem press_handler_first_stay (km : KeyMap) (env : Pressed) (s : State)
    (hb : s.bstate = BSTATE_FIRST) (hm : scanKey km env s = s.keyval_store)
    (ht : s.tick_count < DEBOUNCE_NUM) :
    press_handler km env s =
      { s with rows := Rows.idle, tick_count := s.tick_count + 1 } := by
  have h := kbscan_rows km env s.rows 0
  simp only [scanKey] at hm
  simp only [BSTATE_FIRST] at hb
  simp only [DEBOUNCE_NUM] at ht
  have h1 : ¬ (2 ≤ s.tick_count) := by omega
  have h2 : (s.tick_count + 1) % UINT_MOD = s.tick_count + 1 := by
    simp only [UINT_MOD]; omega
  simp [press_handler, hb, h, hm, DEBOUNCE_NUM, h1, h2]

/-- A Debouncing tick with a matching scan at or above the debounce threshold. -/
theorem press_handler_first_go (km : KeyMap) (env : Pressed) (s : State)
    (hb : s.bstate = BSTATE_FIRST) (hm : scanKey km env s = s.keyval_store)
    (ht : DEBOUNCE_NUM ≤ s.tick_count) :
    press_handler km env s =
      { s with rows := Rows.idle, tick_count := 1, bstate := BSTATE_FIRST_WAIT } := by
  have h := kbscan_rows km env s.rows 0
  simp only [scanKey] at hm
  simp only [BSTATE_FIRST] at hb
  simp only [DEBOUNCE_NUM] at ht
  simp [press_handler, hb, h, hm, DEBOUNCE_NUM, ht, UINT_MOD]

/-- A WaitingForFirstRepeat tick with a matching scan below the threshold. -/
theorem press_handler_wait_stay (km : KeyMap) (env : Pressed) (s : State)
    (hb : s.bstate = BSTATE_FIRST_WAIT) (hm : scanKey km env s = s.keyval_store)
    (ht : s.tick_count < FIRST_WAIT_NUM) :
    press_handler km env s =
      { s with rows := Rows.idle, tick_count := s.tick_count + 1 } := by
  have h := kbscan_rows km env s.rows 0
  simp only [scanKey] at hm
  simp only [BSTATE_FIRST_WAIT] at hb
  simp only [FIRST_WAIT_NUM] at ht
  have h1 : ¬ (100 ≤ s.tick_count) := by omega
  have h2 : (s.tick_count + 1) % UINT_MOD = s.tick_count + 1 := by
    simp only [UINT_MOD]; omega
  simp [press_handler, hb, h, hm, FIRST_WAIT_NUM, h1, h2]

/-- A WaitingForFirstRepeat tick with a matching scan at or above the
threshold raises the request. -/
theorem press_handler_wait_go (km : KeyMap) (env : Pressed) (s : State)
    (hb : s.bstate = BSTATE_FIRST_WAIT) (hm : scanKey km env s = s.keyval_store)
    (ht : FIRST_WAIT_NUM ≤ s.tick_count) :
    press_handler km env s =
      { s with rows := Rows.idle, tstring0 := s.keyval_store, tick_count := 1,
               bstate := BSTATE_NEXT_WAIT, dosend := 1 } := by
  have h := kbscan_rows km env s.rows 0
  simp only [scanKey] at hm
  simp only [BSTATE_FIRST_WAIT] at hb
  simp only [FIRST_WAIT_NUM] at ht
  simp [press_handler, hb, h, hm, FIRST_WAIT_NUM, ht, UINT_MOD]

/-- A WaitingForNextRepeat tick with a matching scan and a counter of at
least one raises the request. -/
theorem press_handler_next_go (km : KeyMap) (env : Pressed) (s : State)
    (hb : s.bstate = BSTATE_NEXT_WAIT) (hm : scanKey km env s = s.keyval_store)
    (ht : NEXT_WAIT_NUM ≤ s.tick_count) :
    press_handler km env s =
      { s with rows := Rows.idle, tstring0 := s.keyval_store, tick_count := 1, dosend := 1 } := by
  have h := kbscan_rows km env s.rows 0
  simp only [scanKey] at hm
  simp only [BSTATE_NEXT_WAIT] at hb
  simp only [NEXT_WAIT_NUM] at ht
  simp [press_handler, hb, h, hm, NEXT_WAIT_NUM, ht, UINT_MOD]

/-- A tick never writes the latched key. -/
theorem press_handler_keyval (km : KeyMap) (env : Pressed) (s : State) :
    (press_handler km env s).keyval_store = s.keyval_store := by
  unfold press_handler
  simp only []
  split <;> (try split_ifs) <;> rfl

/-- After a tick that ends in WaitingForNextRepeat the counter is `1`. -/
theorem press_handler_next_count (km : KeyMap) (env : Pressed) (s : State)
    (hb : (press_handler km env s).bstate = BSTATE_NEXT_WAIT) :
    (press_handler km env s).tick_count = 1 := by
  revert hb
  unfold press_handler
  simp only []
  split <;> (try split_ifs) <;>
    simp_all [BSTATE_IDLE, BSTATE_FIRST, BSTATE_FIRST_WAIT, BSTATE_NEXT_WAIT, NEXT_WAIT_NUM,
      UINT_MOD]

/-! ## One loop iteration -/

/-- The buffer `tstring` holding a non-NUL character and the NUL is the
one-character string. -/
theorem cstr_single (k : Nat) (hk : k ≠ 0) : cstr [k, 0] = [k] := by
  have h : (k != 0) = true := by simpa using hk
  simp [cstr, List.takeWhile, h]

/-- Function `send_kb` only writes `tstring[0]` and the HID endpoint. -/
theorem send_kb_eq (s : State) (k m : Nat) :
    send_kb s k m =
      if m = 0 then { s with tstring0 := k, sent := s.sent ++ [HidOp.printf (cstr [k, 0])] }
      else { s with sent := s.sent ++ [HidOp.keyCode k m] } := by
  unfold send_kb
  split
  · simp
  · rename_i h
    have hm : m ≠ 0 := fun h0 => h (by rw [h0])
    simp [hm]

/-- A loop iteration never writes the engine state. -/
theorem main_loop_iter_bstate (km : KeyMap) (env : Pressed) (s : State) :
    (main_loop_iter km env s).bstate = s.bstate := by
  simp only [main_loop_iter, send_kb_eq]
  split_ifs <;> rfl

/-- A loop iteration never writes the tick counter. -/
theorem main_loop_iter_tick_count (km : KeyMap) (env : Pressed) (s : State) :
    (main_loop_iter km env s).tick_count = s.tick_count := by
  simp only [main_loop_iter, send_kb_eq]
  split_ifs <;> rfl

end Engine

/-! ## Reachable states -/

/-- In every reachable state in WaitingForNextRepeat the counter is `1`. -/
theorem reachable_next_count (km : KeyMap) (s : State) (hr : Reachable km s)
    (hb : s.bstate = BSTATE_NEXT_WAIT) : s.tick_count = 1 := by
  induction hr with
  | init m0 => simp [State.init, BSTATE_IDLE, BSTATE_NEXT_WAIT] at hb
  | loop env _ ih =>
    rw [main_loop_iter_bstate] at hb
    rw [main_loop_iter_tick_count]
    exact ih hb
  | tick env _ _ _ => exact press_handler_next_count km env _ hb

/-- Running a schedule from a reachable state ends in a reachable state. -/
theorem reachable_run (km : KeyMap) (sched : List Step) :
    ∀ s : State, Reachable km s → Reachable km (run km sched s) := by
  induction sched with
  | nil => intro s hs; exact hs
  | cons a rest ih =>
    intro s hs
    apply ih
    cases a with
    | loop env => exact Reachable.loop env hs
    | tick env =>
      by_cases ht : s.ticker = true
      · simp only [step, ht, if_true]; exact Reachable.tick env hs ht
      · simp only [step, ht]; exact hs

/-! ## Claims about the matrix scanner -/

/-- C1: for every key map and every cell `(r, c)` with `r, c < 4`, if the
button at `(r, c)` is the only one held down, `kbscan` (entered with all rows
high, as `main` and every earlier scan leave them) returns `charmap[r][c]`
and leaves `modifiermap[r][c]` in `*modifier`, whatever `*modifier` held
before. -/
theorem kbscan_single_cell (km : KeyMap) (env : Pressed) (m0 r c : Nat)
    (hr : r < 4) (hc : c < 4)
    (honly : ∀ i j, i < 4 → j < 4 → (env i j = true ↔ i = r ∧ j = c)) :
    (kbscan km env Rows.idle m0).ret = km.charmap r c ∧
      (kbscan km env Rows.idle m0).modifier = km.modifiermap r c := by
  have hp : env r c = true := (honly r c hr hc).mpr ⟨rfl, rfl⟩
  have hmax : ∀ i j, i < 4 → j < 4 → env i j = true → i < r ∨ (i = r ∧ j ≤ c) := by
    intro i j hi hj hij
    obtain ⟨h1, h2⟩ := (honly i j hi hj).mp hij
    exact Or.inr ⟨h1, by omega⟩
  rw [kbscan_last km env m0 r c hr hc hp hmax]
  exact ⟨rfl, rfl⟩

/-- Witness of C1: the button at row 1, column 1 of the default map alone
scans as the character `'5'` (code 53) with modifier 0. -/
theorem kbscan_single_cell_witness :
    (kbscan km1 five Rows.idle 7).ret = 53 ∧ (kbscan km1 five Rows.idle 7).modifier = 0 :=
  kbscan_single_cell km1 five 7 1 1 (by decide) (by decide)
    (by intro i j _ _; simp [five, only])

/-- C2: for every non-empty set of buttons held down together, `kbscan`
(entered with all rows high) returns the character and the modifier of one
and the same cell: the held cell that is greatest in row-major,
column-minor order. -/
theorem kbscan_multi_last_wins (km : KeyMap) (env : Pressed) (m0 : Nat)
    (hne : ∃ r c, r < 4 ∧ c < 4 ∧ env r c = true) :
    ∃ r c, r < 4 ∧ c < 4 ∧ env r c = true ∧
      (∀ i j, i < 4 → j < 4 → env i j = true → i < r ∨ (i = r ∧ j ≤ c)) ∧
      (kbscan km env Rows.idle m0).ret = km.charmap r c ∧
      (kbscan km env Rows.idle m0).modifier = km.modifiermap r c := by
  obtain ⟨r, c, hr, hc, hp, hmax⟩ := exists_last_pressed env hne
  refine ⟨r, c, hr, hc, hp, hmax, ?_⟩
  rw [kbscan_last km env m0 r c hr hc hp hmax]
  exact ⟨rfl, rfl⟩

/-- Witness of C2: with the buttons at `(0, 3)` and `(2, 1)` of the default
map both down, the scan returns `'8'` (code 56) with modifier 0, the mapping
of `(2, 1)`; the `KEY_CTRL` of `(0, 3)` does not leak into the result. -/
theorem kbscan_multi_last_wins_witness :
    (kbscan km1 twoKeys Rows.idle 0).ret = 56 ∧
      (kbscan km1 twoKeys Rows.idle 0).modifier = 0 := by
  obtain ⟨r, c, _, _, hp, hmax, h1, h2⟩ :=
    kbscan_multi_last_wins km1 twoKeys 0 ⟨0, 3, by decide, by decide, by decide⟩
  have h21 := hmax 2 1 (by decide) (by decide) (by decide)
  simp only [twoKeys, only, Bool.or_eq_true, Bool.and_eq_true, beq_iff_eq] at hp
  have hr : r = 2 := by omega
  have hc : c = 1 := by omega
  subst hr
  subst hc
  exact ⟨h1, h2⟩

/-- C3: when no button is held down, `kbscan` returns the no-key sentinel,
character `0`, whatever the rows and `*modifier` were on entry. -/
theorem kbscan_no_key (km : KeyMap) (env : Pressed) (rs : Rows) (m0 : Nat)
    (hn : ∀ r c, r < 4 → c < 4 → env r c = false) :
    (kbscan km env rs m0).ret = 0 := by
  rw [kbscan_nokey km env rs m0 hn]

/-- Witness of C3: the default map scanned with no button down. -/
theorem kbscan_no_key_witness : (kbscan km1 nokey Rows.idle 7).ret = 0 :=
  kbscan_no_key km1 nokey Rows.idle 7 (by intro r c _ _; rfl)

/-! ## Claims about single steps -/

section Steps

attribute [local irreducible] kbscan

/-- C4 (as amended): one loop iteration started dormant (`isattached = 0`,
`bstate` Idle, `dosend = 0`) whose scan yields `(k, m)`. If `k != 0` it
latches `keyval_store = k` and `modifier_store = m`, performs exactly the one
HID operation of `send_kb(k, m)`, sets `isattached = 1` and attaches the
ticker. If `k = 0` it transmits nothing and changes nothing except the
outputs of the scan itself: `keypad_event` becomes `0`, the local `modifier`
of `main` holds what the scan left, and the rows are all high. -/
theorem dormant_iteration (km : KeyMap) (env : Pressed) (s : State) (k m : Nat)
    (ha : s.isattached = 0) (hb : s.bstate = BSTATE_IDLE) (hd : s.dosend = 0)
    (hk : (kbscan km env s.rows s.modifier).ret = k)
    (hm : (kbscan km env s.rows s.modifier).modifier = m) :
    (k ≠ 0 →
      (main_loop_iter km env s).keyval_store = k ∧
      (main_loop_iter km env s).modifier_store = m ∧
      (main_loop_iter km env s).sent =
        s.sent ++ [if m = 0 then HidOp.printf [k] else HidOp.keyCode k m] ∧
      (main_loop_iter km env s).isattached = 1 ∧
      (main_loop_iter km env s).ticker = true) ∧
    (k = 0 →
      main_loop_iter km env s =
        { s with keypad_event := 0, modifier := m, rows := Rows.idle }) := by
  have hrows := kbscan_rows km env s.rows s.modifier
  constructor
  · intro hk0
    have hc : cstr [k, 0] = [k] := cstr_single k hk0
    by_cases hm0 : m = 0 <;>
      simp [main_loop_iter, send_kb_eq, hd, ha, hb, hk, hm, hk0, hc, hm0]
  · intro hk0
    subst hk0
    simp [main_loop_iter, hd, ha, hb, hk, hm, hrows]

/-- C5 (as amended): in Debouncing, WaitingForFirstRepeat or
WaitingForNextRepeat, one tick whose scan differs from the latched key
leaves `bstate` Idle, `isattached = 0` and the ticker detached, and leaves
`dosend` as it was: no request is raised, and none is pending afterwards
when none was pending before. -/
theorem release_returns_to_dormant (km : KeyMap) (env : Pressed) (s : State)
    (hb : s.bstate = BSTATE_FIRST ∨ s.bstate = BSTATE_FIRST_WAIT ∨ s.bstate = BSTATE_NEXT_WAIT)
    (hmis : scanKey km env s ≠ s.keyval_store) :
    (press_handler km env s).bstate = BSTATE_IDLE ∧
      (press_handler km env s).isattached = 0 ∧
      (press_handler km env s).ticker = false ∧
      (press_handler km env s).dosend = s.dosend := by
  rw [press_handler_release km env s hb hmis]
  exact ⟨rfl, rfl, rfl, rfl⟩

/-- C8 (as amended): from every state with `bstate` Idle, whatever the scan
sees, one tick leaves the engine in Debouncing with `tick_count = 1` (reset
to `0` by the Idle case, then incremented by the closing `tick_count++`),
and `dosend` as it was. -/
theorem idle_tick (km : KeyMap) (env : Pressed) (s : State) (hb : s.bstate = BSTATE_IDLE) :
    (press_handler km env s).bstate = BSTATE_FIRST ∧
      (press_handler km env s).tick_count = 1 ∧
      (press_handler km env s).dosend = s.dosend := by
  rw [press_handler_idle km env s hb]
  exact ⟨rfl, rfl, rfl⟩

/-- C9: from the state produced by the Idle tick, with the latched key seen
by both scans, the first Debouncing tick stays in Debouncing, the second
moves to WaitingForFirstRepeat, and `dosend` is never written. In general a
Debouncing tick with a matching scan moves to WaitingForFirstRepeat iff
`tick_count >= 2` at the tick, and otherwise stays in Debouncing with
`tick_count` incremented by one. -/
theorem debounce_ticks (km : KeyMap) :
    (∀ (s0 : State) (e0 e1 e2 : Pressed), s0.bstate = BSTATE_IDLE →
      scanKey km e1 (press_handler km e0 s0) = s0.keyval_store →
      scanKey km e2 (press_handler km e1 (press_handler km e0 s0)) = s0.keyval_store →
      (press_handler km e1 (press_handler km e0 s0)).bstate = BSTATE_FIRST ∧
      (press_handler km e1 (press_handler km e0 s0)).dosend = s0.dosend ∧
      (press_handler km e2 (press_handler km e1 (press_handler km e0 s0))).bstate =
        BSTATE_FIRST_WAIT ∧
      (press_handler km e2 (press_handler km e1 (press_handler km e0 s0))).dosend =
        s0.dosend) ∧
    (∀ (s : State) (env : Pressed), s.bstate = BSTATE_FIRST →
      scanKey km env s = s.keyval_store →
      ((press_handler km env s).bstate = BSTATE_FIRST_WAIT ↔ DEBOUNCE_NUM ≤ s.tick_count) ∧
      (¬ DEBOUNCE_NUM ≤ s.tick_count →
        (press_handler km env s).bstate = BSTATE_FIRST ∧
        (press_handler km env s).tick_count = s.tick_count + 1)) := by
  constructor
  · intro s0 e0 e1 e2 hb h1 h2
    rw [press_handler_idle km e0 s0 hb] at h1 h2 ⊢
    rw [press_handler_first_stay km e1 _ rfl h1 (show (1 : Nat) < 2 by norm_num)] at h2 ⊢
    rw [press_handler_first_go km e2 _ rfl h2 (show (2 : Nat) ≤ 2 by norm_num)]
    exact ⟨rfl, rfl, rfl, rfl⟩
  · intro s env hb hm
    by_cases ht : DEBOUNCE_NUM ≤ s.tick_count
    · rw [press_handler_first_go km env s hb hm ht]
      exact ⟨⟨fun _ => ht, fun _ => rfl⟩, fun h => absurd ht h⟩
    · rw [press_handler_first_stay km env s hb hm (by omega)]
      refine ⟨⟨fun h => ?_, fun h => absurd h ht⟩, fun _ => ⟨hb, rfl⟩⟩
      simp only [hb, BSTATE_FIRST, BSTATE_FIRST_WAIT] at h
      omega

end Steps

/-! ## Runs of several steps -/

section Runs

attribute [local irreducible] kbscan

/-- A loop iteration with a key attached and no request pending does nothing. -/
theorem main_loop_iter_attached_quiet (km : KeyMap) (env : Pressed) (s : State)
    (hd : s.dosend = 0) (ha : s.isattached ≠ 0) : main_loop_iter km env s = s := by
  simp [main_loop_iter, hd, ha]

/-- A loop iteration with a key attached and a request pending sends the
latched key and clears the request. -/
theorem main_loop_iter_attached_send (km : KeyMap) (env : Pressed) (s : State)
    (hd : s.dosend ≠ 0) (ha : s.isattached ≠ 0) :
    main_loop_iter km env s =
      { send_kb s s.keyval_store s.modifier_store with dosend := 0 } := by
  have h : (send_kb s s.keyval_store s.modifier_store).isattached = s.isattached := by
    rw [send_kb_eq]
    split_ifs <;> rfl
  simp [main_loop_iter, hd, ha, h]

/-- Running a schedule in two parts. -/
theorem run_append (km : KeyMap) (a b : List Step) (s : State) :
    run km (a ++ b) s = run km b (run km a s) := by
  simp [run, List.foldl_append]

/-- Running ticks in two parts. -/
theorem runTicks_append (km : KeyMap) (a b : List Pressed) (s : State) :
    runTicks km (a ++ b) s = runTicks km b (runTicks km a s) := by
  simp [runTicks, List.foldl_append]

/-- A key held over a list of ticks is held over every initial part of it. -/
theorem heldAll_take (km : KeyMap) (n : Nat) :
    ∀ (envs : List Pressed) (s : State), heldAll km envs s → heldAll km (envs.take n) s := by
  induction n with
  | zero => intro envs s _; simp [heldAll]
  | succ n ih =>
    intro envs s h
    cases envs with
    | nil => simp [heldAll]
    | cons e es =>
      simp only [List.take_succ_cons, heldAll] at h ⊢
      exact ⟨h.1, ih es _ h.2⟩

/-- A key held over a list of ticks is held over the rest of the list from
the state the first part leads to. -/
theorem heldAll_append (km : KeyMap) :
    ∀ (a b : List Pressed) (s : State), heldAll km (a ++ b) s →
      heldAll km b (runTicks km a s) := by
  intro a
  induction a with
  | nil => intro b s h; simpa [runTicks] using h
  | cons e es ih =>
    intro b s h
    simp only [List.cons_append, heldAll] at h
    simpa [runTicks] using ih b _ h.2

/-- While the counter stays within the first-repeat threshold, ticks with the
key held stay in WaitingForFirstRepeat and count; nothing else is written
but the rows. -/
theorem first_wait_ticks (km : KeyMap) :
    ∀ (envs : List Pressed) (s : State), s.bstate = BSTATE_FIRST_WAIT →
      s.tick_count + envs.length ≤ FIRST_WAIT_NUM → heldAll km envs s →
      (runTicks km envs s).bstate = BSTATE_FIRST_WAIT ∧
      (runTicks km envs s).tick_count = s.tick_count + envs.length ∧
      (runTicks km envs s).dosend = s.dosend ∧
      (runTicks km envs s).keyval_store = s.keyval_store := by
  intro envs
  induction envs with
  | nil => intro s hb _ _; exact ⟨hb, rfl, rfl, rfl⟩
  | cons e es ih =>
    intro s hb hlen hheld
    simp only [heldAll] at hheld
    simp only [List.length_cons, FIRST_WAIT_NUM] at hlen
    have hstep := press_handler_wait_stay km e s hb hheld.1
      (by simp only [FIRST_WAIT_NUM]; omega)
    have hnext := ih (press_handler km e s) (by rw [hstep]; exact hb)
      (by rw [hstep]; simp only [FIRST_WAIT_NUM]; show s.tick_count + 1 + es.length ≤ 100; omega)
      hheld.2
    have hrun : runTicks km (e :: es) s = runTicks km es (press_handler km e s) := rfl
    rw [hrun]
    obtain ⟨h1, h2, h3, h4⟩ := hnext
    refine ⟨h1, ?_, ?_, ?_⟩
    · rw [h2, hstep]
      show s.tick_count + 1 + es.length = s.tick_count + (es.length + 1)
      omega
    · rw [h3, hstep]
    · rw [h4, hstep]

/-- The scan of the button `five` on the default map, started with all rows
high, returns the character `'5'`. -/
theorem kbscan_five (K m0 : Nat) :
    kbscan (init_map K) five Rows.idle m0 = { rows := Rows.idle, ret := 53, modifier := 0 } := by
  have h := kbscan_last (init_map K) five m0 1 1 (by norm_num) (by norm_num) (by decide)
    (by
      intro i j _ _ hp
      simp only [five, only, Bool.and_eq_true, beq_iff_eq] at hp
      omega)
  rw [h]
  rfl

/-- The state after the press of `five` is detected and `n` ticks, each
followed by a loop iteration, have passed with the button held. -/
theorem run_holdSched (K m0 : Nat) :
    ∀ n, run (init_map K) (holdSched five n) (State.init m0) = heldState n := by
  intro n
  induction n with
  | zero =>
    have hsc := kbscan_five K m0
    simp only [holdSched, run, List.foldl, step, main_loop_iter, send_kb_eq, State.init]
    simp [hsc, heldState, cstr_single, BSTATE_IDLE]
  | succ n ih =>
    have hkey : scanKey (init_map K) five (heldState n) = (heldState n).keyval_store := by
      show (kbscan (init_map K) five Rows.idle 0).ret = 53
      rw [kbscan_five]
    have hrun : run (init_map K) (holdSched five (n + 1)) (State.init m0) =
        main_loop_iter (init_map K) five (press_handler (init_map K) five (heldState n)) := by
      show run (init_map K) (holdSched five n ++ [Step.tick five, Step.loop five]) _ = _
      rw [run_append, ih]
      rfl
    rw [hrun]
    rcases Nat.lt_or_ge n 1 with h0 | h1
    · -- the Idle tick
      have hn : n = 0 := by omega
      subst hn
      rw [press_handler_idle _ _ _ rfl,
        main_loop_iter_attached_quiet _ _ _ rfl (by simp [heldState])]
      simp [heldState, BSTATE_IDLE, BSTATE_FIRST]
    rcases Nat.lt_or_ge n 2 with h1a | h2
    · -- first Debouncing tick
      have hn : n = 1 := by omega
      subst hn
      rw [press_handler_first_stay _ _ _ rfl hkey (by simp [heldState, DEBOUNCE_NUM]),
        main_loop_iter_attached_quiet _ _ _ rfl (by simp [heldState])]
      simp [heldState, BSTATE_FIRST]
    rcases Nat.lt_or_ge n 3 with h2a | h3
    · -- second Debouncing tick
      have hn : n = 2 := by omega
      subst hn
      rw [press_handler_first_go _ _ _ rfl hkey (by simp [heldState, DEBOUNCE_NUM]),
        main_loop_iter_attached_quiet _ _ _ rfl (by simp [heldState])]
      simp [heldState, BSTATE_FIRST, BSTATE_FIRST_WAIT]
    rcases Nat.lt_or_ge n 102 with h3a | h102
    · -- WaitingForFirstRepeat, below the threshold
      have hb : (heldState n).bstate = BSTATE_FIRST_WAIT := by
        simp [heldState, show ¬ n = 0 by omega, show ¬ n < 3 by omega, show n < 103 by omega]
      have ht : (heldState n).tick_count = n - 2 := by
        simp [heldState, show ¬ n < 3 by omega, show n < 103 by omega]
      rw [press_handler_wait_stay _ _ _ hb hkey (by rw [ht]; simp only [FIRST_WAIT_NUM]; omega),
        main_loop_iter_attached_quiet _ _ _ rfl (by simp [heldState])]
      simp [heldState, show ¬ n = 0 by omega, show ¬ n < 3 by omega, show n < 103 by omega,
        show ¬ n + 1 < 3 by omega, show n + 1 < 103 by omega]
      omega
    rcases Nat.lt_or_ge n 103 with h102a | h103
    · -- the tick at which the first-repeat wait expires
      have hn : n = 102 := by omega
      subst hn
      rw [press_handler_wait_go _ _ _ rfl hkey (by simp [heldState, FIRST_WAIT_NUM]),
        main_loop_iter_attached_send _ _ _ (by simp) (by simp [heldState])]
      simp [heldState, send_kb_eq, cstr_single, BSTATE_NEXT_WAIT, List.replicate]
    · -- WaitingForNextRepeat
      have hb : (heldState n).bstate = BSTATE_NEXT_WAIT := by
        simp [heldState, show ¬ n = 0 by omega, show ¬ n < 3 by omega, show ¬ n < 103 by omega]
      have ht : (heldState n).tick_count = 1 := by
        simp [heldState, show ¬ n < 3 by omega, show ¬ n < 103 by omega]
      rw [press_handler_next_go _ _ _ hb hkey (by rw [ht]; simp [NEXT_WAIT_NUM]),
        main_loop_iter_attached_send _ _ _ (by simp) (by simp [heldState])]
      have hrep : n + 1 - 101 = (n - 101) + 1 := by omega
      simp [heldState, send_kb_eq, cstr_single, show ¬ n = 0 by omega, show ¬ n < 3 by omega,
        show ¬ n < 103 by omega, show ¬ n + 1 < 3 by omega, show ¬ n + 1 < 103 by omega, hrep,
        List.replicate_succ']

end Runs

/-! ## Claims about runs -/

section RunClaims

attribute [local irreducible] kbscan

/-- The button `five` held over any number of ticks is seen by every scan,
from any state with all rows high that has `'5'` latched. -/
theorem heldAll_five (K : Nat) :
    ∀ (n : Nat) (s : State), s.rows = Rows.idle → s.keyval_store = 53 →
      heldAll (init_map K) (List.replicate n five) s := by
  intro n
  induction n with
  | zero => intro s _ _; simp [heldAll]
  | succ n ih =>
    intro s hr hk
    simp only [List.replicate_succ, heldAll]
    refine ⟨?_, ih _ (press_handler_rows _ _ _) ?_⟩
    · show (kbscan (init_map K) five s.rows 0).ret = s.keyval_store
      rw [hr, kbscan_five, hk]
    · rw [press_handler_keyval, hk]

/-- C6: from the state in which WaitingForFirstRepeat has just been entered
(the result of the Debouncing tick that took the transition), with the
latched key seen by the scan of each of the next 100 ticks: after each of
the first 99 ticks the engine is still in WaitingForFirstRepeat and `dosend`
is as it was (no request raised), and the 100th tick sets `dosend = 1` and
moves to WaitingForNextRepeat. -/
theorem first_repeat_after_100_ticks (km : KeyMap) (s0 : State) (e0 : Pressed)
    (envs : List Pressed) (hb : s0.bstate = BSTATE_FIRST)
    (hm0 : scanKey km e0 s0 = s0.keyval_store) (ht : DEBOUNCE_NUM ≤ s0.tick_count)
    (hlen : envs.length = 100) (hheld : heldAll km envs (press_handler km e0 s0)) :
    (press_handler km e0 s0).bstate = BSTATE_FIRST_WAIT ∧
    (∀ n, n ≤ 99 →
      (runTicks km (envs.take n) (press_handler km e0 s0)).bstate = BSTATE_FIRST_WAIT ∧
      (runTicks km (envs.take n) (press_handler km e0 s0)).dosend = s0.dosend) ∧
    (runTicks km envs (press_handler km e0 s0)).bstate = BSTATE_NEXT_WAIT ∧
    (runTicks km envs (press_handler km e0 s0)).dosend = 1 := by
  have hs := press_handler_first_go km e0 s0 hb hm0 ht
  have hsb : (press_handler km e0 s0).bstate = BSTATE_FIRST_WAIT := by rw [hs]
  have hst : (press_handler km e0 s0).tick_count = 1 := by rw [hs]
  have hsd : (press_handler km e0 s0).dosend = s0.dosend := by rw [hs]
  have hfirst : ∀ n, n ≤ 99 →
      (runTicks km (envs.take n) (press_handler km e0 s0)).bstate = BSTATE_FIRST_WAIT ∧
      (runTicks km (envs.take n) (press_handler km e0 s0)).tick_count = 1 + n ∧
      (runTicks km (envs.take n) (press_handler km e0 s0)).dosend = s0.dosend ∧
      (runTicks km (envs.take n) (press_handler km e0 s0)).keyval_store =
        (press_handler km e0 s0).keyval_store := by
    intro n hn
    have hl : (envs.take n).length = n := by
      rw [List.length_take, hlen]; omega
    have h := first_wait_ticks km (envs.take n) _ hsb
      (by rw [hst, hl]; simp only [FIRST_WAIT_NUM]; omega) (heldAll_take km n envs _ hheld)
    rw [hst, hl, hsd] at h
    exact h
  refine ⟨hsb, fun n hn => ⟨(hfirst n hn).1, (hfirst n hn).2.2.1⟩, ?_⟩
  obtain ⟨h1, h2, _, h4⟩ := hfirst 99 (by norm_num)
  have hd : (envs.drop 99).length = 1 := by
    rw [List.length_drop, hlen]
  obtain ⟨e, he⟩ := List.length_eq_one.mp hd
  have hsplit : envs = envs.take 99 ++ [e] := by
    rw [← he, List.take_append_drop]
  have hheld2 : heldAll km [e] (runTicks km (envs.take 99) (press_handler km e0 s0)) := by
    apply heldAll_append
    rw [← hsplit]
    exact hheld
  simp only [heldAll] at hheld2
  have hrun : runTicks km envs (press_handler km e0 s0) =
      press_handler km e (runTicks km (envs.take 99) (press_handler km e0 s0)) := by
    conv_lhs => rw [hsplit]
    rw [runTicks_append]
    rfl
  rw [hrun, press_handler_wait_go km e _ h1 hheld2.1 (by rw [h2]; simp [FIRST_WAIT_NUM])]
  exact ⟨rfl, rfl⟩

/-- C7: in every reachable state with `bstate` WaitingForNextRepeat, a tick
whose scan matches the latched key sets `dosend = 1` and leaves `bstate` in
WaitingForNextRepeat; the resulting state is again of this kind, so this
holds for any number of further ticks. -/
theorem next_wait_repeats (km : KeyMap) (env : Pressed) (s : State)
    (hr : Reachable km s) (hb : s.bstate = BSTATE_NEXT_WAIT)
    (hm : scanKey km env s = s.keyval_store) :
    (press_handler km env s).dosend = 1 ∧
      (press_handler km env s).bstate = BSTATE_NEXT_WAIT := by
  have ht := reachable_next_count km s hr hb
  rw [press_handler_next_go km env s hb hm (by rw [ht]; simp [NEXT_WAIT_NUM])]
  exact ⟨rfl, hb⟩

/-- C10: from the initial state, with the default map, pressing the button
mapped to `'5'` (code 53, modifier 0) and holding it: after the press is
detected and `n` ticks have passed, each followed by a loop iteration, the
HID trace consists of `printf("5")` only, once while `n < 103` and `n - 101`
times from the 103rd tick on. The request behind the second transmission is
raised by the 103rd tick, and after 600 ticks the trace has 499 entries. -/
theorem hold_five_600_ticks (K m0 : Nat) :
    chardefault 1 1 = 53 ∧ modifierdefault K 1 1 = 0 ∧
    (∀ n, (run (init_map K) (holdSched five n) (State.init m0)).sent =
      List.replicate (if n < 103 then 1 else n - 101) (HidOp.printf [53])) ∧
    (run (init_map K) (holdSched five 0) (State.init m0)).sent = [HidOp.printf [53]] ∧
    (run (init_map K) (holdSched five 102) (State.init m0)).sent = [HidOp.printf [53]] ∧
    (press_handler (init_map K) five
      (run (init_map K) (holdSched five 102) (State.init m0))).dosend = 1 ∧
    (run (init_map K) (holdSched five 103) (State.init m0)).sent =
      [HidOp.printf [53], HidOp.printf [53]] ∧
    (run (init_map K) (holdSched five 600) (State.init m0)).sent =
      List.replicate 499 (HidOp.printf [53]) := by
  have hkey : scanKey (init_map K) five (heldState 102) = (heldState 102).keyval_store := by
    show (kbscan (init_map K) five Rows.idle 0).ret = 53
    rw [kbscan_five]
  refine ⟨rfl, rfl, fun n => ?_, ?_, ?_, ?_, ?_, ?_⟩
  · rw [run_holdSched]; rfl
  · rw [run_holdSched]; rfl
  · rw [run_holdSched]; rfl
  · rw [run_holdSched,
      press_handler_wait_go _ _ _ rfl hkey (by simp [heldState, FIRST_WAIT_NUM])]
  · rw [run_holdSched]; rfl
  · rw [run_holdSched]; rfl

end RunClaims

/-! ## Closed instances: witnesses and counterexamples -/

set_option maxRecDepth 20000

/-- The state `heldState n` is reachable. -/
theorem heldState_reachable (n : Nat) : Reachable km1 (heldState n) := by
  have h := reachable_run km1 (holdSched five n) (State.init 0) (Reachable.init 0)
  have e : run km1 (holdSched five n) (State.init 0) = heldState n := run_holdSched 1 0 n
  rw [e] at h
  exact h

/-- Counterexample to C4 as stated: after a short press of `five` the system
is dormant and `keypad_event` still holds `'5'`; the next loop iteration,
whose scan returns `0`, overwrites `keypad_event` with `0`, so it does change
a global variable. -/
theorem dormant_iteration_writes_keypad_event :
    Reachable km1 afterShortPress ∧
    afterShortPress.isattached = 0 ∧ afterShortPress.bstate = BSTATE_IDLE ∧
    afterShortPress.dosend = 0 ∧
    (kbscan km1 nokey afterShortPress.rows afterShortPress.modifier).ret = 0 ∧
    afterShortPress.keypad_event = 53 ∧
    (main_loop_iter km1 nokey afterShortPress).keypad_event = 0 ∧
    main_loop_iter km1 nokey afterShortPress ≠ afterShortPress :=
  ⟨reachable_run km1 _ _ (Reachable.init 0), by decide, by decide, by decide, by decide,
    by decide, by decide, by decide⟩

/-- Witness of C4: from the initial state the press of `five` is latched and
sent once; from the dormant state after a short press, an iteration that
scans nothing only resets `keypad_event`. -/
theorem dormant_iteration_witness :
    ((main_loop_iter km1 five (State.init 0)).keyval_store = 53 ∧
      (main_loop_iter km1 five (State.init 0)).modifier_store = 0 ∧
      (main_loop_iter km1 five (State.init 0)).sent = [HidOp.printf [53]] ∧
      (main_loop_iter km1 five (State.init 0)).isattached = 1 ∧
      (main_loop_iter km1 five (State.init 0)).ticker = true) ∧
    main_loop_iter km1 nokey afterShortPress =
      { afterShortPress with keypad_event := 0, modifier := 0, rows := Rows.idle } :=
  ⟨(dormant_iteration km1 five (State.init 0) 53 0 rfl rfl rfl (by decide) (by decide)).1
      (by decide),
    (dormant_iteration km1 nokey afterShortPress 0 0 (by decide) (by decide) (by decide)
      (by decide) (by decide)).2 rfl⟩

/-- Counterexample to C5 as stated: `pendingRepeat` is reachable, is in
WaitingForNextRepeat and has `dosend = 1`; a tick that sees the button
released returns to Idle, un-attached, but `dosend` is still `1`: a request
is pending in the dormant condition. -/
theorem release_leaves_request_pending :
    Reachable km1 pendingRepeat ∧
    pendingRepeat.bstate = BSTATE_NEXT_WAIT ∧
    scanKey km1 nokey pendingRepeat ≠ pendingRepeat.keyval_store ∧
    (press_handler km1 nokey pendingRepeat).bstate = BSTATE_IDLE ∧
    (press_handler km1 nokey pendingRepeat).isattached = 0 ∧
    (press_handler km1 nokey pendingRepeat).ticker = false ∧
    (press_handler km1 nokey pendingRepeat).dosend = 1 :=
  ⟨Reachable.tick five (heldState_reachable 102) rfl, by decide, by decide, by decide,
    by decide, by decide, by decide⟩

/-- Witness of C5: the button `five` released while Debouncing. -/
theorem release_returns_to_dormant_witness :
    (press_handler km1 nokey (heldState 1)).bstate = BSTATE_IDLE ∧
      (press_handler km1 nokey (heldState 1)).isattached = 0 ∧
      (press_handler km1 nokey (heldState 1)).ticker = false ∧
      (press_handler km1 nokey (heldState 1)).dosend = (heldState 1).dosend :=
  release_returns_to_dormant km1 nokey (heldState 1) (Or.inl rfl) (by decide)

/-- Witness of C6: `five` held from the second Debouncing tick on. -/
theorem first_repeat_after_100_ticks_witness :
    (press_handler km1 five (heldState 2)).bstate = BSTATE_FIRST_WAIT ∧
    (∀ n, n ≤ 99 →
      (runTicks km1 ((List.replicate 100 five).take n)
        (press_handler km1 five (heldState 2))).bstate = BSTATE_FIRST_WAIT ∧
      (runTicks km1 ((List.replicate 100 five).take n)
        (press_handler km1 five (heldState 2))).dosend = (heldState 2).dosend) ∧
    (runTicks km1 (List.replicate 100 five)
      (press_handler km1 five (heldState 2))).bstate = BSTATE_NEXT_WAIT ∧
    (runTicks km1 (List.replicate 100 five)
      (press_handler km1 five (heldState 2))).dosend = 1 :=
  first_repeat_after_100_ticks km1 (heldState 2) five (List.replicate 100 five) rfl
    (by decide) (by decide) (by simp)
    (heldAll_five 1 100 _ (press_handler_rows _ _ _) (by decide))

/-- Witness of C7: `five` still held in the reachable state `heldState 103`,
which is in WaitingForNextRepeat with no request pending. -/
theorem next_wait_repeats_witness :
    (heldState 103).dosend = 0 ∧
    (press_handler km1 five (heldState 103)).dosend = 1 ∧
    (press_handler km1 five (heldState 103)).bstate = BSTATE_NEXT_WAIT :=
  ⟨rfl, next_wait_repeats km1 five (heldState 103) (heldState_reachable 103) rfl
    (by decide)⟩

/-- Counterexample to C8 as stated: one tick from the Idle state
`pressedFive` ends in Debouncing with `tick_count = 1`, not `0`. -/
theorem idle_tick_count_is_one :
    Reachable km1 pressedFive ∧
    pressedFive.bstate = BSTATE_IDLE ∧ pressedFive.ticker = true ∧
    (press_handler km1 five pressedFive).bstate = BSTATE_FIRST ∧
    (press_handler km1 five pressedFive).tick_count = 1 ∧
    (press_handler km1 five pressedFive).tick_count ≠ 0 :=
  ⟨Reachable.loop five (Reachable.init 0), by decide, by decide, by decide, by decide,
    by decide⟩

/-- Witness of C8: the Idle tick from `pressedFive`. -/
theorem idle_tick_witness :
    (press_handler km1 five pressedFive).bstate = BSTATE_FIRST ∧
      (press_handler km1 five pressedFive).tick_count = 1 ∧
      (press_handler km1 five pressedFive).dosend = pressedFive.dosend :=
  idle_tick km1 five pressedFive (by decide)

/-- Witness of C9: the two Debouncing ticks after the Idle tick from
`pressedFive`, with `five` held. -/
theorem debounce_ticks_witness :
    (press_handler km1 five (press_handler km1 five pressedFive)).bstate = BSTATE_FIRST ∧
    (press_handler km1 five (press_handler km1 five pressedFive)).dosend =
      pressedFive.dosend ∧
    (press_handler km1 five
      (press_handler km1 five (press_handler km1 five pressedFive))).bstate =
        BSTATE_FIRST_WAIT ∧
    (press_handler km1 five
      (press_handler km1 five (press_handler km1 five pressedFive))).dosend =
        pressedFive.dosend :=
  (debounce_ticks km1).1 pressedFive five five five (by decide) (by decide) (by decide)

/-! ## Claims about `send_kb` and the frame of the two contexts -/

/-- Function `send_kb` appends its one HID operation and, on the `printf`
path, writes `tstring[0]`. -/
theorem send_kb_hidOp (s : State) (k m : Nat) :
    send_kb s k m =
      { s with tstring0 := if m = 0 then k else s.tstring0, sent := s.sent ++ [hidOp k m] } := by
  rw [send_kb_eq]
  by_cases hm : m = 0 <;> simp [hidOp, hm]

/-- C12: for every key value `k` (a character other than `0`; `0` is the
no-key sentinel, and both calls of `send_kb` in `main` pass a latched key,
which is never `0`) and every modifier `m`, `send_kb(k, m)` adds exactly one
HID operation to the trace: `kb.printf` of the one-character string `k` when
`m = 0`, and `kb.keyCode(k, m)` when `m != 0`. -/
theorem send_kb_one_op (s : State) (k m : Nat) (hk : k ≠ 0) :
    (m = 0 → (send_kb s k m).sent = s.sent ++ [HidOp.printf [k]]) ∧
    (m ≠ 0 → (send_kb s k m).sent = s.sent ++ [HidOp.keyCode k m]) := by
  constructor
  · intro hm
    rw [send_kb_hidOp]
    simp [hidOp, hm, cstr_single k hk]
  · intro hm
    rw [send_kb_hidOp]
    simp [hidOp, hm]

/-- Witness of C12: `send_kb('5', 0)` and `send_kb('a', 1)` from the initial
state. -/
theorem send_kb_one_op_witness :
    (send_kb (State.init 0) 53 0).sent = [HidOp.printf [53]] ∧
      (send_kb (State.init 0) 97 1).sent = [HidOp.keyCode 97 1] :=
  ⟨(send_kb_one_op (State.init 0) 53 0 (by decide)).1 rfl,
    (send_kb_one_op (State.init 0) 97 1 (by decide)).2 (by decide)⟩

section Frames

attribute [local irreducible] kbscan

/-- The second `if` of the loop body, for a state with no request pending:
nothing happens unless the state is dormant; a dormant state is scanned, and
a key that is found is latched and sent. -/
theorem main_loop_iter_quiet (km : KeyMap) (env : Pressed) (s : State) (hd : s.dosend = 0) :
    main_loop_iter km env s =
      if s.isattached = 0 ∧ s.bstate = BSTATE_IDLE then
        if (kbscan km env s.rows s.modifier).ret ≠ 0 then
          { s with rows := Rows.idle,
                   modifier := (kbscan km env s.rows s.modifier).modifier,
                   keypad_event := (kbscan km env s.rows s.modifier).ret,
                   isattached := 1,
                   keyval_store := (kbscan km env s.rows s.modifier).ret,
                   modifier_store := (kbscan km env s.rows s.modifier).modifier,
                   tstring0 := if (kbscan km env s.rows s.modifier).modifier = 0
                               then (kbscan km env s.rows s.modifier).ret else s.tstring0,
                   sent := s.sent ++ [hidOp (kbscan km env s.rows s.modifier).ret
                                        (kbscan km env s.rows s.modifier).modifier],
                   ticker := true }
        else
          { s with rows := Rows.idle,
                   modifier := (kbscan km env s.rows s.modifier).modifier,
                   keypad_event := 0 }
      else s := by
  have hrows := kbscan_rows km env s.rows s.modifier
  by_cases hg : s.isattached = 0 ∧ s.bstate = BSTATE_IDLE
  · by_cases hk : (kbscan km env s.rows s.modifier).ret = 0
    · simp [main_loop_iter, hd, hg.1, hg.2, hk, hrows]
    · simp [main_loop_iter, hd, hg.1, hg.2, hk, hrows, send_kb_hidOp]
  · have hg2 : s.isattached = 0 → ¬ s.bstate = BSTATE_IDLE := fun h1 h2 => hg ⟨h1, h2⟩
    simp [main_loop_iter, hd, hg, hg2]

/-- The first `if` of the loop body, for a state with a request pending: the
latched key is sent, the request cleared, and the iteration goes on as one
started with no request pending. -/
theorem main_loop_iter_pending (km : KeyMap) (env : Pressed) (s : State) (hd : s.dosend ≠ 0) :
    main_loop_iter km env s =
      main_loop_iter km env
        { s with tstring0 := if s.modifier_store = 0 then s.keyval_store else s.tstring0,
                 sent := s.sent ++ [hidOp s.keyval_store s.modifier_store],
                 dosend := 0 } := by
  simp [main_loop_iter, hd, send_kb_hidOp]

/-- C13: one loop iteration started with a request pending (`dosend = 1`, or
any non-zero value) extends the HID trace first by the one operation of
`send_kb(keyval_store, modifier_store)`, with the pair as it was at the start,
and ends with `dosend = 0`; anything transmitted after it is the press of a
key newly found by the scan of a dormant state. Started with `dosend = 0` it
leaves `dosend = 0` and transmits nothing, except for such a new press. -/
theorem repeat_request_served (km : KeyMap) (env : Pressed) (s : State) :
    (s.dosend ≠ 0 →
      (main_loop_iter km env s).dosend = 0 ∧
      ∃ rest, (main_loop_iter km env s).sent =
          s.sent ++ hidOp s.keyval_store s.modifier_store :: rest ∧
        (rest = [] ∨
          (s.isattached = 0 ∧ s.bstate = BSTATE_IDLE ∧
            (kbscan km env s.rows s.modifier).ret ≠ 0 ∧
            rest = [hidOp (kbscan km env s.rows s.modifier).ret
                      (kbscan km env s.rows s.modifier).modifier]))) ∧
    (s.dosend = 0 →
      (main_loop_iter km env s).dosend = 0 ∧
      ((main_loop_iter km env s).sent = s.sent ∨
        (s.isattached = 0 ∧ s.bstate = BSTATE_IDLE ∧
          (kbscan km env s.rows s.modifier).ret ≠ 0 ∧
          (main_loop_iter km env s).sent =
            s.sent ++ [hidOp (kbscan km env s.rows s.modifier).ret
                        (kbscan km env s.rows s.modifier).modifier]))) := by
  constructor
  · intro hd
    rw [main_loop_iter_pending km env s hd, main_loop_iter_quiet km env _ rfl]
    by_cases hg : s.isattached = 0 ∧ s.bstate = BSTATE_IDLE
    · by_cases hk : (kbscan km env s.rows s.modifier).ret = 0
      · simp [hg.1, hg.2, hk]
      · simp [hg.1, hg.2, hk]
    · have hg2 : s.isattached = 0 → ¬ s.bstate = BSTATE_IDLE := fun h1 h2 => hg ⟨h1, h2⟩
      simp [hg, hg2]
  · intro hd
    rw [main_loop_iter_quiet km env s hd]
    by_cases hg : s.isattached = 0 ∧ s.bstate = BSTATE_IDLE
    · by_cases hk : (kbscan km env s.rows s.modifier).ret = 0
      · simp [hg.1, hg.2, hk, hd]
      · simp [hg.1, hg.2, hk, hd]
    · have hg2 : s.isattached = 0 → ¬ s.bstate = BSTATE_IDLE := fun h1 h2 => hg ⟨h1, h2⟩
      simp [hg, hg2, hd]

/-- A tick never writes the latched modifier. -/
theorem press_handler_modifier_store (km : KeyMap) (env : Pressed) (s : State) :
    (press_handler km env s).modifier_store = s.modifier_store := by
  unfold press_handler
  simp only []
  split <;> (try split_ifs) <;> rfl

/-- A tick leaves `dosend` as it was or sets it to `1`. -/
theorem press_handler_dosend (km : KeyMap) (env : Pressed) (s : State) :
    (press_handler km env s).dosend = s.dosend ∨ (press_handler km env s).dosend = 1 := by
  unfold press_handler
  simp only []
  split <;> (try split_ifs) <;> simp

/-- C16: a loop iteration never changes `bstate` or `tick_count`, whatever
it scans or sends; a tick never changes `keyval_store` or `modifier_store`,
and it leaves `dosend` as it was or sets it to `1`, so it never changes
`dosend` from `1` to `0`. -/
theorem frame_of_loop_and_tick (km : KeyMap) (env : Pressed) (s : State) :
    (main_loop_iter km env s).bstate = s.bstate ∧
    (main_loop_iter km env s).tick_count = s.tick_count ∧
    (press_handler km env s).keyval_store = s.keyval_store ∧
    (press_handler km env s).modifier_store = s.modifier_store ∧
    ((press_handler km env s).dosend = s.dosend ∨ (press_handler km env s).dosend = 1) ∧
    (s.dosend = 1 → (press_handler km env s).dosend = 1) := by
  refine ⟨main_loop_iter_bstate km env s, main_loop_iter_tick_count km env s,
    press_handler_keyval km env s, press_handler_modifier_store km env s,
    press_handler_dosend km env s, fun h => ?_⟩
  rcases press_handler_dosend km env s with h1 | h1
  · rw [h1, h]
  · exact h1

end Frames

/-! ## Claims about the row outputs during a scan and about release detection -/

/-- The logged scan computes the scan. -/
theorem kbscan_log_st (km : KeyMap) (env : Pressed) (rs : Rows) (m0 : Nat) :
    (kbscan_log km env rs m0).st = kbscan km env rs m0 := by
  simp [kbscan_log, kbscan, kbscan_row_log, kbscan_row, kbscan_col_log, List.range,
    List.range.loop, List.foldl]

/-- The column reads of a scan entered with all rows high, in order: sixteen
reads, each done with only the scanned row driven low. -/
theorem kbscan_log_reads (km : KeyMap) (env : Pressed) (m0 : Nat) :
    (kbscan_log km env Rows.idle m0).reads =
      (List.range 4).flatMap (fun r => (List.range 4).map (fun c =>
        ({ row_idx := r, col_idx := c, rows := Rows.idle.write r 0 } : ColRead))) := by
  simp [kbscan_log, kbscan_row_log, kbscan_col_log, List.range, List.range.loop, List.foldl,
    kbscan_col_rows, Rows.idle, Rows.write]

/-- C14: with all rows high when `kbscan` is called, the scan does sixteen
column reads, and at each of them exactly one row is low, the row being
scanned; and all four rows are high when `kbscan` returns, whatever buttons
are down (on return even whatever the rows were on entry). -/
theorem kbscan_row_discipline (km : KeyMap) (env : Pressed) (m0 : Nat) :
    (kbscan_log km env Rows.idle m0).st = kbscan km env Rows.idle m0 ∧
    (kbscan_log km env Rows.idle m0).reads.length = 16 ∧
    (∀ rd ∈ (kbscan_log km env Rows.idle m0).reads,
      rd.row_idx < 4 ∧ rd.col_idx < 4 ∧
      ∀ i, i < 4 → (rd.rows.level i = 0 ↔ i = rd.row_idx)) ∧
    (kbscan km env Rows.idle m0).rows = Rows.idle ∧
    (∀ rs, (kbscan km env rs m0).rows = Rows.idle) := by
  refine ⟨kbscan_log_st km env Rows.idle m0, ?_, ?_, kbscan_rows km env Rows.idle m0,
    fun rs => kbscan_rows km env rs m0⟩
  · rw [kbscan_log_reads]
    rfl
  · rw [kbscan_log_reads]
    intro rd hrd
    simp only [List.mem_flatMap, List.mem_range, List.mem_map] at hrd
    obtain ⟨r, hr, c, hc, rfl⟩ := hrd
    refine ⟨hr, hc, ?_⟩
    intro i hi
    show (Rows.idle.write r 0).level i = 0 ↔ i = r
    interval_cases r <;> interval_cases i <;> simp [Rows.idle, Rows.write, Rows.level]

section Release

attribute [local irreducible] kbscan

/-- A tick in a non-Idle state whose scan returns the latched character
stays out of Idle and leaves `isattached` and the ticker alone. -/
theorem press_handler_held (km : KeyMap) (env : Pressed) (s : State)
    (hb : s.bstate = BSTATE_FIRST ∨ s.bstate = BSTATE_FIRST_WAIT ∨ s.bstate = BSTATE_NEXT_WAIT)
    (hm : scanKey km env s = s.keyval_store) :
    (press_handler km env s).bstate ≠ BSTATE_IDLE ∧
      (press_handler km env s).isattached = s.isattached ∧
      (press_handler km env s).ticker = s.ticker := by
  simp only [scanKey] at hm
  simp only [BSTATE_FIRST, BSTATE_FIRST_WAIT, BSTATE_NEXT_WAIT] at hb
  rcases hb with hb | hb | hb <;>
    simp only [press_handler, hb, hm, ne_eq, not_true_eq_false, if_false] <;>
    split_ifs <;>
    simp [hb, BSTATE_IDLE, BSTATE_FIRST, BSTATE_FIRST_WAIT, BSTATE_NEXT_WAIT]

/-- C15 (as amended): in Debouncing, WaitingForFirstRepeat or
WaitingForNextRepeat, a tick treats the key as released (back to Idle,
`isattached = 0`, ticker detached) if and only if the character returned by
the fresh scan differs from the latched `keyval_store`; the modifier the scan
yields is not compared with `modifier_store`. -/
theorem release_iff_char_differs (km : KeyMap) (env : Pressed) (s : State)
    (hb : s.bstate = BSTATE_FIRST ∨ s.bstate = BSTATE_FIRST_WAIT ∨ s.bstate = BSTATE_NEXT_WAIT) :
    ((press_handler km env s).bstate = BSTATE_IDLE ↔ scanKey km env s ≠ s.keyval_store) ∧
    (scanKey km env s ≠ s.keyval_store →
      (press_handler km env s).isattached = 0 ∧ (press_handler km env s).ticker = false) ∧
    (scanKey km env s = s.keyval_store →
      (press_handler km env s).isattached = s.isattached ∧
      (press_handler km env s).ticker = s.ticker) := by
  refine ⟨⟨fun h hm => (press_handler_held km env s hb hm).1 h, fun hm => ?_⟩,
    fun hm => ?_, fun hm => (press_handler_held km env s hb hm).2⟩
  · rw [press_handler_release km env s hb hm]
  · rw [press_handler_release km env s hb hm]
    exact ⟨rfl, rfl⟩

end Release

/-! ## Invariants of the reachable states -/

section Invariants

attribute [local irreducible] kbscan

/-- A tick leaves `isattached` and the ticker alone, or it detaches: both
cleared and the engine back in Idle. -/
theorem press_handler_attach (km : KeyMap) (env : Pressed) (s : State) :
    ((press_handler km env s).isattached = s.isattached ∧
      (press_handler km env s).ticker = s.ticker) ∨
    ((press_handler km env s).isattached = 0 ∧ (press_handler km env s).ticker = false ∧
      (press_handler km env s).bstate = BSTATE_IDLE) := by
  unfold press_handler
  simp only []
  split <;> (try split_ifs) <;> simp [BSTATE_IDLE]

/-- A loop iteration run while a key is attached touches nothing of the scan
or of the latch. -/
theorem main_loop_iter_attached_frame (km : KeyMap) (env : Pressed) (s : State)
    (ha : s.isattached ≠ 0) :
    (main_loop_iter km env s).keyval_store = s.keyval_store ∧
      (main_loop_iter km env s).modifier_store = s.modifier_store ∧
      (main_loop_iter km env s).keypad_event = s.keypad_event ∧
      (main_loop_iter km env s).modifier = s.modifier ∧
      (main_loop_iter km env s).rows = s.rows ∧
      (main_loop_iter km env s).isattached = s.isattached ∧
      (main_loop_iter km env s).ticker = s.ticker := by
  by_cases hd : s.dosend = 0
  · rw [main_loop_iter_quiet km env s hd]
    simp [ha]
  · rw [main_loop_iter_pending km env s hd, main_loop_iter_quiet km env _ rfl]
    simp [ha]

/-- In every reachable state either nothing is attached (`isattached = 0`,
ticker detached, engine Idle) or a key is (`isattached = 1`, ticker
attached). -/
theorem reachable_attach_cases (km : KeyMap) (s : State) (hr : Reachable km s) :
    (s.isattached = 0 ∧ s.ticker = false ∧ s.bstate = BSTATE_IDLE) ∨
      (s.isattached = 1 ∧ s.ticker = true) := by
  induction hr with
  | init m0 => exact Or.inl ⟨rfl, rfl, rfl⟩
  | @loop env s _ ih =>
    have hb := main_loop_iter_bstate km env s
    rcases ih with ⟨h1, h2, h3⟩ | ⟨h1, h2⟩
    · by_cases hd : s.dosend = 0
      · rw [main_loop_iter_quiet km env s hd] at hb ⊢
        by_cases hk : (kbscan km env s.rows s.modifier).ret = 0
        · simp [h1, h2, h3, hk]
        · simp [h1, h2, h3, hk]
      · rw [main_loop_iter_pending km env s hd, main_loop_iter_quiet km env _ rfl] at hb ⊢
        by_cases hk : (kbscan km env s.rows s.modifier).ret = 0
        · simp [h1, h2, h3, hk]
        · simp [h1, h2, h3, hk]
    · have hf := main_loop_iter_attached_frame km env s (by rw [h1]; decide)
      exact Or.inr ⟨by rw [hf.2.2.2.2.2.1, h1], by rw [hf.2.2.2.2.2.2, h2]⟩
  | @tick env s _ ht ih =>
    rcases ih with ⟨_, h2, _⟩ | ⟨h1, h2⟩
    · rw [h2] at ht
      exact absurd ht (by decide)
    · rcases press_handler_attach km env s with ⟨e1, e2⟩ | ⟨e1, e2, e3⟩
      · exact Or.inr ⟨by rw [e1, h1], by rw [e2, h2]⟩
      · exact Or.inl ⟨e1, e2, e3⟩

/-- C17: in every state reachable from the initial state by whole loop
iterations and whole ticks (a tick only while the ticker is attached), the
ticker is attached iff `isattached = 1`, and `bstate` not Idle implies
`isattached = 1`. Hence `isattached = 0` implies `bstate` Idle (the second
conjunct of the guard of the loop is implied by the first), and while a press
cycle is in progress (`isattached = 1`) a loop iteration neither scans nor
latches: the rows, `keypad_event`, the local `modifier`, `keyval_store`,
`modifier_store`, `isattached` and the ticker stay as they are. -/
theorem reachable_attached_iff_ticker (km : KeyMap) (s : State) (hr : Reachable km s) :
    (s.ticker = true ↔ s.isattached = 1) ∧
    (s.bstate ≠ BSTATE_IDLE → s.isattached = 1) ∧
    (s.isattached = 0 → s.bstate = BSTATE_IDLE) ∧
    (s.isattached = 0 ∨ s.isattached = 1) ∧
    (s.isattached = 1 → ∀ env,
      (main_loop_iter km env s).keyval_store = s.keyval_store ∧
      (main_loop_iter km env s).modifier_store = s.modifier_store ∧
      (main_loop_iter km env s).keypad_event = s.keypad_event ∧
      (main_loop_iter km env s).modifier = s.modifier ∧
      (main_loop_iter km env s).rows = s.rows ∧
      (main_loop_iter km env s).isattached = s.isattached ∧
      (main_loop_iter km env s).ticker = s.ticker) := by
  have hf : s.isattached = 1 → ∀ env, _ := fun h env =>
    main_loop_iter_attached_frame km env s (by rw [h]; decide)
  rcases reachable_attach_cases km s hr with ⟨h1, h2, h3⟩ | ⟨h1, h2⟩
  · refine ⟨?_, fun h => absurd h3 h, fun _ => h3, Or.inl h1, hf⟩
    rw [h1, h2]
    decide
  · refine ⟨?_, fun _ => h1, fun h => ?_, Or.inr h1, hf⟩
    · rw [h1, h2]
      decide
    · rw [h1] at h
      exact absurd h (by decide)

/-- The counter bound that goes with each engine state. -/
theorem press_handler_count_bound (km : KeyMap) (env : Pressed) (s : State)
    (h : (s.bstate = BSTATE_IDLE ∧ s.tick_count ≤ 101) ∨
      (s.bstate = BSTATE_FIRST ∧ 1 ≤ s.tick_count ∧ s.tick_count ≤ 2) ∨
      (s.bstate = BSTATE_FIRST_WAIT ∧ 1 ≤ s.tick_count ∧ s.tick_count ≤ 100) ∨
      (s.bstate = BSTATE_NEXT_WAIT ∧ s.tick_count = 1)) :
    ((press_handler km env s).bstate = BSTATE_IDLE ∧ 1 ≤ (press_handler km env s).tick_count ∧
        (press_handler km env s).tick_count ≤ 101) ∨
      ((press_handler km env s).bstate = BSTATE_FIRST ∧
        1 ≤ (press_handler km env s).tick_count ∧ (press_handler km env s).tick_count ≤ 2) ∨
      ((press_handler km env s).bstate = BSTATE_FIRST_WAIT ∧
        1 ≤ (press_handler km env s).tick_count ∧
        (press_handler km env s).tick_count ≤ 100) ∨
      ((press_handler km env s).bstate = BSTATE_NEXT_WAIT ∧
        (press_handler km env s).tick_count = 1) := by
  simp only [BSTATE_IDLE, BSTATE_FIRST, BSTATE_FIRST_WAIT, BSTATE_NEXT_WAIT] at h ⊢
  rcases h with ⟨hb, ht⟩ | ⟨hb, ht1, ht2⟩ | ⟨hb, ht1, ht2⟩ | ⟨hb, ht⟩
  · have e := press_handler_idle km env s hb
    rw [e]
    simp [BSTATE_FIRST]
  · by_cases hm : scanKey km env s = s.keyval_store
    · by_cases h2 : DEBOUNCE_NUM ≤ s.tick_count
      · rw [press_handler_first_go km env s hb hm h2]
        simp [BSTATE_FIRST_WAIT]
      · rw [press_handler_first_stay km env s hb hm (by omega)]
        simp only [DEBOUNCE_NUM] at h2
        simp [hb]
        omega
    · rw [press_handler_release km env s (Or.inl hb) hm]
      simp [BSTATE_IDLE, UINT_MOD]
      omega
  · by_cases hm : scanKey km env s = s.keyval_store
    · by_cases h2 : FIRST_WAIT_NUM ≤ s.tick_count
      · rw [press_handler_wait_go km env s hb hm h2]
        simp [BSTATE_NEXT_WAIT]
      · rw [press_handler_wait_stay km env s hb hm (by omega)]
        simp only [FIRST_WAIT_NUM] at h2
        simp [hb]
        omega
    · rw [press_handler_release km env s (Or.inr (Or.inl hb)) hm]
      simp [BSTATE_IDLE, UINT_MOD]
      omega
  · by_cases hm : scanKey km env s = s.keyval_store
    · rw [press_handler_next_go km env s hb hm (by rw [ht]; simp [NEXT_WAIT_NUM])]
      simp [hb]
    · rw [press_handler_release km env s (Or.inr (Or.inr hb)) hm]
      simp [BSTATE_IDLE, UINT_MOD, ht]

/-- In every reachable state the engine state is one of the four and the
counter is within the bound of that state. -/
theorem reachable_count_cases (km : KeyMap) (s : State) (hr : Reachable km s) :
    (s.bstate = BSTATE_IDLE ∧ s.tick_count ≤ 101) ∨
      (s.bstate = BSTATE_FIRST ∧ 1 ≤ s.tick_count ∧ s.tick_count ≤ 2) ∨
      (s.bstate = BSTATE_FIRST_WAIT ∧ 1 ≤ s.tick_count ∧ s.tick_count ≤ 100) ∨
      (s.bstate = BSTATE_NEXT_WAIT ∧ s.tick_count = 1) := by
  induction hr with
  | init m0 => exact Or.inl ⟨rfl, by simp [State.init]⟩
  | @loop env s _ ih =>
    rw [main_loop_iter_bstate, main_loop_iter_tick_count]
    exact ih
  | @tick env s _ _ ih =>
    rcases press_handler_count_bound km env s ih with ⟨h1, _, h3⟩ | h
    · exact Or.inl ⟨h1, h3⟩
    · exact Or.inr h

/-- C18: in every reachable state `tick_count <= 101` (`FIRST_WAIT_NUM + 1`),
so incrementing it does not wrap around the 32-bit range, and
`tick_count >= 1` whenever `bstate` is not Idle, that is at the start of every
tick taken in a non-Idle state; every tick from a reachable state ends with
a counter between 1 and 101. -/
theorem reachable_tick_count_bound (km : KeyMap) (s : State) (hr : Reachable km s) :
    s.tick_count ≤ FIRST_WAIT_NUM + 1 ∧
    (s.tick_count + 1) % UINT_MOD = s.tick_count + 1 ∧
    (s.bstate ≠ BSTATE_IDLE → 1 ≤ s.tick_count) ∧
    (∀ env, 1 ≤ (press_handler km env s).tick_count ∧
      (press_handler km env s).tick_count ≤ FIRST_WAIT_NUM + 1) := by
  have hs := reachable_count_cases km s hr
  have hbound : s.tick_count ≤ 101 := by
    rcases hs with ⟨_, h⟩ | ⟨_, _, h⟩ | ⟨_, _, h⟩ | ⟨_, h⟩ <;> omega
  refine ⟨by simp only [FIRST_WAIT_NUM]; omega, by simp only [UINT_MOD]; omega, ?_, ?_⟩
  · intro hne
    rcases hs with ⟨h, _⟩ | ⟨_, h, _⟩ | ⟨_, h, _⟩ | ⟨_, h⟩
    · exact absurd h hne
    · exact h
    · exact h
    · omega
  · intro env
    simp only [FIRST_WAIT_NUM]
    rcases press_handler_count_bound km env s hs with ⟨_, h1, h2⟩ | ⟨_, h1, h2⟩ |
      ⟨_, h1, h2⟩ | ⟨_, h⟩ <;> omega

/-- In every reachable state either a non-zero key is latched, or no key has
been latched yet: then no request is pending and the ticker is detached. -/
theorem reachable_latch_cases (km : KeyMap) (s : State) (hr : Reachable km s) :
    s.keyval_store ≠ 0 ∨ (s.dosend = 0 ∧ s.ticker = false) := by
  induction hr with
  | init m0 => exact Or.inr ⟨rfl, rfl⟩
  | @loop env s _ ih =>
    by_cases hd : s.dosend = 0
    · rw [main_loop_iter_quiet km env s hd]
      by_cases hg : s.isattached = 0 ∧ s.bstate = BSTATE_IDLE
      · by_cases hk : (kbscan km env s.rows s.modifier).ret = 0
        · simp only [hg.1, hg.2, hk, and_self, if_true, ne_eq, not_true_eq_false, if_false]
          rcases ih with h | ⟨h1, h2⟩
          · exact Or.inl h
          · exact Or.inr ⟨h1, h2⟩
        · simp only [hg.1, hg.2, hk, and_self, if_true, ne_eq, not_false_eq_true]
          exact Or.inl trivial
      · simp only [hg, if_false]
        exact ih
    · rcases ih with h | ⟨h1, _⟩
      · rw [main_loop_iter_pending km env s hd, main_loop_iter_quiet km env _ rfl]
        by_cases hg : s.isattached = 0 ∧ s.bstate = BSTATE_IDLE
        · by_cases hk : (kbscan km env s.rows s.modifier).ret = 0
          · simp only [hg.1, hg.2, hk, and_self, if_true, ne_eq, not_true_eq_false, if_false]
            exact Or.inl h
          · simp only [hg.1, hg.2, hk, and_self, if_true, ne_eq, not_false_eq_true]
            exact Or.inl trivial
        · simp only [hg, if_false]
          exact Or.inl h
      · exact absurd h1 hd
  | @tick env s _ ht ih =>
    rcases ih with h | ⟨_, h2⟩
    · exact Or.inl (by rw [press_handler_keyval]; exact h)
    · rw [h2] at ht
      exact absurd ht (by decide)

/-- In every reachable state with a request pending the latched key is not
`0`: the call `send_kb(keyval_store, modifier_store)` that serves a request
passes a non-zero key, as does the call that follows `keypad_event != 0`. -/
theorem reachable_pending_key_nonzero (km : KeyMap) (s : State) (hr : Reachable km s)
    (hd : s.dosend ≠ 0) : s.keyval_store ≠ 0 := by
  rcases reachable_latch_cases km s hr with h | ⟨h, _⟩
  · exact h
  · exact absurd h hd

end Invariants

/-! ## The short press, end to end -/

section ShortPress

attribute [local irreducible] kbscan

/-- Running a schedule step by step. -/
theorem run_cons (km : KeyMap) (a : Step) (l : List Step) (s : State) :
    run km (a :: l) s = run km l (step km s a) := rfl

/-- Loop iterations run while a key is attached and no request is pending
change nothing. -/
theorem run_loops_attached (km : KeyMap) :
    ∀ (envs : List Pressed) (s : State), s.dosend = 0 → s.isattached ≠ 0 →
      run km (envs.map Step.loop) s = s := by
  intro envs
  induction envs with
  | nil => intro s _ _; rfl
  | cons e es ih =>
    intro s hd ha
    rw [List.map_cons, run_cons]
    simp only [step]
    rw [main_loop_iter_attached_quiet km e s hd ha]
    exact ih s hd ha

/-- Loop iterations run in the dormant condition with no button down send
nothing and leave the system dormant. -/
theorem run_loops_nokey (km : KeyMap) :
    ∀ (n : Nat) (s : State), s.isattached = 0 → s.bstate = BSTATE_IDLE → s.dosend = 0 →
      (run km (List.replicate n (Step.loop nokey)) s).sent = s.sent ∧
      (run km (List.replicate n (Step.loop nokey)) s).dosend = 0 ∧
      (run km (List.replicate n (Step.loop nokey)) s).isattached = 0 ∧
      (run km (List.replicate n (Step.loop nokey)) s).bstate = BSTATE_IDLE ∧
      (run km (List.replicate n (Step.loop nokey)) s).ticker = s.ticker := by
  intro n
  induction n with
  | zero => intro s ha hb hd; exact ⟨rfl, hd, ha, hb, rfl⟩
  | succ n ih =>
    intro s ha hb hd
    have hsc := kbscan_nokey km nokey s.rows s.modifier (fun _ _ _ _ => rfl)
    have hstep : main_loop_iter km nokey s = { s with rows := Rows.idle, keypad_event := 0 } := by
      rw [main_loop_iter_quiet km nokey s hd]
      simp [ha, hb, hsc]
    rw [List.replicate_succ, run_cons]
    simp only [step]
    rw [hstep]
    exact ih _ ha hb hd

end ShortPress

/-- The scan of the button `ctrlA` on the default map, started with all rows
high, returns `'a'` with `KEY_CTRL`. -/
theorem kbscan_ctrlA (K m0 : Nat) :
    kbscan (init_map K) ctrlA Rows.idle m0 = { rows := Rows.idle, ret := 97, modifier := K } := by
  have h := kbscan_last (init_map K) ctrlA m0 0 3 (by norm_num) (by norm_num) (by decide)
    (by
      intro i j _ _ hp
      simp only [ctrlA, only, Bool.and_eq_true, beq_iff_eq] at hp
      omega)
  rw [h]
  rfl

section ShortPressClaim

attribute [local irreducible] kbscan

/-- The state after the press of `ctrlA` is detected from the initial state
and any loop iterations have run. -/
theorem run_shortPressA (K m0 : Nat) (hK : K ≠ 0) (envsA : List Pressed) :
    run (init_map K) (shortPressA envsA) (State.init m0) =
      { State.init m0 with modifier := K, keypad_event := 97, isattached := 1,
                           keyval_store := 97, modifier_store := K,
                           sent := [HidOp.keyCode 97 K], ticker := true } := by
  have hsc := kbscan_ctrlA K m0
  have hfirst : main_loop_iter (init_map K) ctrlA (State.init m0) =
      { State.init m0 with modifier := K, keypad_event := 97, isattached := 1,
                           keyval_store := 97, modifier_store := K,
                           sent := [HidOp.keyCode 97 K], ticker := true } := by
    rw [main_loop_iter_quiet _ _ _ rfl]
    simp [State.init, hsc, hK, hidOp, BSTATE_IDLE]
  rw [shortPressA, run_cons]
  simp only [step]
  rw [hfirst]
  exact run_loops_attached _ envsA _ rfl (by simp)

/-- The state after the first tick of a short press and any loop iterations. -/
theorem run_shortPressB (K m0 : Nat) (hK : K ≠ 0) (envsA : List Pressed) (e1 : Pressed)
    (envsB : List Pressed) :
    run (init_map K) (shortPressB envsA e1 envsB) (State.init m0) =
      { State.init m0 with modifier := K, keypad_event := 97, isattached := 1,
                           keyval_store := 97, modifier_store := K,
                           sent := [HidOp.keyCode 97 K], ticker := true,
                           tick_count := 1, bstate := BSTATE_FIRST } := by
  rw [shortPressB, run_append, run_shortPressA K m0 hK envsA]
  rw [run_cons]
  simp only [step, if_true]
  rw [press_handler_idle _ _ _ rfl]
  exact run_loops_attached _ envsB _ rfl (by simp)

/-- C11 (as amended): from the initial state with the default map and
`KEY_CTRL != 0`, pressing the button of `('a', KEY_CTRL)` and releasing it
before the second tick: whatever the buttons do before the second tick and
however many loop iterations run in between, the HID trace is exactly the one
`keyCode('a', KEY_CTRL)` sent at press time, `dosend` is `0` throughout, the
first tick leaves the engine Debouncing with the key still attached, and the
second tick, which sees the button released, leaves the system dormant
(`isattached = 0`, `bstate` Idle, ticker detached), where it stays. -/
theorem short_press_ctrl_a (K m0 : Nat) (hK : K ≠ 0) (envsA envsB : List Pressed)
    (e1 : Pressed) (n : Nat) :
    chardefault 0 3 = 97 ∧ modifierdefault K 0 3 = K ∧
    ((run (init_map K) (shortPressA envsA) (State.init m0)).sent = [HidOp.keyCode 97 K] ∧
      (run (init_map K) (shortPressA envsA) (State.init m0)).dosend = 0) ∧
    ((run (init_map K) (shortPressB envsA e1 envsB) (State.init m0)).sent =
        [HidOp.keyCode 97 K] ∧
      (run (init_map K) (shortPressB envsA e1 envsB) (State.init m0)).dosend = 0 ∧
      (run (init_map K) (shortPressB envsA e1 envsB) (State.init m0)).isattached = 1 ∧
      (run (init_map K) (shortPressB envsA e1 envsB) (State.init m0)).bstate = BSTATE_FIRST) ∧
    ((run (init_map K) (shortPressC envsA e1 envsB n) (State.init m0)).sent =
        [HidOp.keyCode 97 K] ∧
      (run (init_map K) (shortPressC envsA e1 envsB n) (State.init m0)).dosend = 0 ∧
      (run (init_map K) (shortPressC envsA e1 envsB n) (State.init m0)).isattached = 0 ∧
      (run (init_map K) (shortPressC envsA e1 envsB n) (State.init m0)).bstate = BSTATE_IDLE ∧
      (run (init_map K) (shortPressC envsA e1 envsB n) (State.init m0)).ticker = false) := by
  refine ⟨rfl, rfl, ?_, ?_, ?_⟩
  · rw [run_shortPressA K m0 hK envsA]
    exact ⟨rfl, rfl⟩
  · rw [run_shortPressB K m0 hK envsA e1 envsB]
    exact ⟨rfl, rfl, rfl, rfl⟩
  · rw [shortPressC, run_append, run_shortPressB K m0 hK envsA e1 envsB]
    have hsc : kbscan (init_map K) nokey Rows.idle 0 =
        { rows := Rows.idle, ret := 0, modifier := 0 } :=
      kbscan_nokey _ nokey Rows.idle 0 (fun _ _ _ _ => rfl)
    have hrel := press_handler_release (init_map K) nokey
      { State.init m0 with modifier := K, keypad_event := 97, isattached := 1,
                           keyval_store := 97, modifier_store := K,
                           sent := [HidOp.keyCode 97 K], ticker := true,
                           tick_count := 1, bstate := BSTATE_FIRST }
      (Or.inl rfl)
      (by
        show (kbscan (init_map K) nokey Rows.idle 0).ret ≠ 97
        rw [hsc]
        decide)
    rw [run_cons]
    simp only [step, if_true]
    rw [hrel]
    have h := run_loops_nokey (init_map K) n
      { State.init m0 with modifier := K, keypad_event := 97, isattached := 0,
                           keyval_store := 97, modifier_store := K,
                           sent := [HidOp.keyCode 97 K], ticker := false,
                           tick_count := (1 + 1) % UINT_MOD, bstate := BSTATE_IDLE,
                           rows := Rows.idle }
      rfl rfl rfl
    exact h

end ShortPressClaim

/-! ## Leftovers of earlier press cycles -/

section Leftovers

attribute [local irreducible] kbscan

/-- Two related states have the same HID trace. -/
theorem pressRel_sent (t1 t2 : State) (h : pressRel t1 t2) : t1.sent = t2.sent := by
  rcases h with ⟨_, _, _, _, h⟩ | ⟨_, _, _, _, h⟩ | h
  · rw [h]
  · rw [h]
  · rw [h]

/-- Two related states with the ticker attached are equal after one tick. -/
theorem pressRel_tick (km : KeyMap) (env : Pressed) (t1 t2 : State) (h : pressRel t1 t2)
    (ht : t1.ticker = true) :
    step km t1 (Step.tick env) = step km t2 (Step.tick env) := by
  rcases h with ⟨_, _, _, hf, _⟩ | ⟨_, hb, _, _, h⟩ | h
  · rw [hf] at ht
    exact absurd ht (by decide)
  · have ht2 : t2.ticker = true := by rw [h]; exact ht
    have hb2 : t2.bstate = BSTATE_IDLE := by rw [h]; exact hb
    simp only [step, ht, ht2, if_true]
    rw [press_handler_idle km env t1 hb, press_handler_idle km env t2 hb2]
    rw [h]
  · rw [h]

/-- One scheduling event keeps two states related. -/
theorem pressRel_step (km : KeyMap) (a : Step) (t1 t2 : State) (h : pressRel t1 t2) :
    pressRel (step km t1 a) (step km t2 a) := by
  rcases h with ⟨ha, hb, hd, hf, h⟩ | ⟨ha, hb, hd, hf, h⟩ | h
  · -- both dormant, differing only in leftovers
    have ha2 : t2.isattached = 0 := by rw [h]; exact ha
    have hb2 : t2.bstate = BSTATE_IDLE := by rw [h]; exact hb
    have hd2 : t2.dosend = 0 := by rw [h]; exact hd
    have hf2 : t2.ticker = false := by rw [h]; exact hf
    have hr2 : t2.rows = t1.rows := by rw [h]
    have hm2 : t2.modifier = t1.modifier := by rw [h]
    cases a with
    | tick env =>
      simp only [step, hf, hf2]
      exact Or.inl ⟨ha, hb, hd, hf, h⟩
    | loop env =>
      simp only [step]
      rw [main_loop_iter_quiet km env t1 hd, main_loop_iter_quiet km env t2 hd2]
      simp only [ha, hb, ha2, hb2, hr2, hm2, and_self, if_true]
      by_cases hk : (kbscan km env t1.rows t1.modifier).ret = 0
      · simp only [hk, ne_eq, not_true_eq_false, if_false]
        refine Or.inl ⟨rfl, rfl, hd, hf, ?_⟩
        simp only [staleOnly] at h ⊢
        rw [h]
      · simp only [hk, ne_eq, not_false_eq_true, if_true]
        refine Or.inr (Or.inl ⟨rfl, rfl, hd, rfl, ?_⟩)
        simp only [staleOnly] at h
        rw [h]
  · -- a press latched in both, first tick still to come
    have ha2 : t2.isattached = 1 := by rw [h]; exact ha
    have hd2 : t2.dosend = 0 := by rw [h]; exact hd
    cases a with
    | tick env =>
      exact Or.inr (Or.inr (pressRel_tick km env t1 t2 (Or.inr (Or.inl ⟨ha, hb, hd, hf, h⟩)) hf))
    | loop env =>
      simp only [step]
      rw [main_loop_iter_attached_quiet km env t1 hd (by rw [ha]; decide),
        main_loop_iter_attached_quiet km env t2 hd2 (by rw [ha2]; decide)]
      exact Or.inr (Or.inl ⟨ha, hb, hd, hf, h⟩)
  · rw [h]
    exact Or.inr (Or.inr rfl)

/-- A schedule keeps two states related. -/
theorem pressRel_run (km : KeyMap) (sched : List Step) :
    ∀ t1 t2 : State, pressRel t1 t2 → pressRel (run km sched t1) (run km sched t2) := by
  induction sched with
  | nil => intro t1 t2 h; exact h
  | cons a rest ih =>
    intro t1 t2 h
    rw [run_cons, run_cons]
    exact ih _ _ (pressRel_step km a t1 t2 h)

/-- C19: take two dormant states (`isattached = 0`, `bstate` Idle,
`dosend = 0`, ticker detached) that differ only in `tick_count`,
`keyval_store` and `modifier_store`, and run the same schedule of loop
iterations and ticks, with the same buttons, from both. The two runs have the
same HID trace, and once a tick has been taken with the ticker attached (the
first such tick is the first one after a new press is latched) the two
states are equal. -/
theorem press_cycle_ignores_leftovers (km : KeyMap) (s1 s2 : State) (sched : List Step)
    (ha : s1.isattached = 0) (hb : s1.bstate = BSTATE_IDLE) (hd : s1.dosend = 0)
    (hf : s1.ticker = false) (hsame : staleOnly s1 s2) :
    (s2.isattached = 0 ∧ s2.bstate = BSTATE_IDLE ∧ s2.dosend = 0 ∧ s2.ticker = false) ∧
    (run km sched s1).sent = (run km sched s2).sent ∧
    (∀ p env q, sched = p ++ Step.tick env :: q → (run km p s1).ticker = true →
      run km sched s1 = run km sched s2) := by
  have hrel : pressRel s1 s2 := Or.inl ⟨ha, hb, hd, hf, hsame⟩
  refine ⟨?_, pressRel_sent _ _ (pressRel_run km sched s1 s2 hrel), ?_⟩
  · simp only [staleOnly] at hsame
    rw [hsame]
    exact ⟨ha, hb, hd, hf⟩
  · intro p env q hsched ht
    rw [hsched, run_append, run_append, run_cons, run_cons,
      pressRel_tick km env _ _ (pressRel_run km p s1 s2 hrel) ht]

end Leftovers

/-! ## Closed instances for the later claims -/

/-- Counterexample to C11 as stated: with the button of `('a', KEY_CTRL)`
released before the first tick, the next tick following the release is the
Idle tick, which does not compare the scan: after it the key is still
attached and the engine is Debouncing, not dormant. -/
theorem short_press_not_dormant_after_idle_tick :
    (run km1 [Step.loop ctrlA, Step.tick nokey] (State.init 0)).isattached = 1 ∧
    (run km1 [Step.loop ctrlA, Step.tick nokey] (State.init 0)).bstate = BSTATE_FIRST ∧
    (run km1 [Step.loop ctrlA, Step.tick nokey] (State.init 0)).ticker = true ∧
    (run km1 [Step.loop ctrlA, Step.tick nokey] (State.init 0)).sent = [HidOp.keyCode 97 1] ∧
    (run km1 [Step.loop ctrlA, Step.tick nokey, Step.tick nokey] (State.init 0)).isattached = 0 ∧
    (run km1 [Step.loop ctrlA, Step.tick nokey, Step.tick nokey] (State.init 0)).bstate =
      BSTATE_IDLE := by
  decide

/-- Witness of C11: `KEY_CTRL = 1`, the button released before the first
tick, one loop iteration after the second tick. -/
theorem short_press_ctrl_a_witness :
    (run km1 (shortPressC [] nokey [] 1) (State.init 0)).sent = [HidOp.keyCode 97 1] ∧
    (run km1 (shortPressC [] nokey [] 1) (State.init 0)).dosend = 0 ∧
    (run km1 (shortPressC [] nokey [] 1) (State.init 0)).isattached = 0 ∧
    (run km1 (shortPressC [] nokey [] 1) (State.init 0)).bstate = BSTATE_IDLE ∧
    (run km1 (shortPressC [] nokey [] 1) (State.init 0)).ticker = false :=
  (short_press_ctrl_a 1 0 (by decide) [] [] nokey 1).2.2.2.2

/-- Witness of C13: the loop iteration that serves the request pending in
`pendingRepeat` sends `printf("5")` once and clears `dosend`. -/
theorem repeat_request_served_witness :
    pendingRepeat.dosend = 1 ∧
    (main_loop_iter km1 five pendingRepeat).dosend = 0 ∧
    (main_loop_iter km1 five pendingRepeat).sent = pendingRepeat.sent ++ [HidOp.printf [53]] := by
  obtain ⟨h1, rest, h2, h3⟩ := (repeat_request_served km1 five pendingRepeat).1 (by decide)
  refine ⟨by decide, h1, ?_⟩
  rcases h3 with h3 | ⟨h3, _⟩
  · rw [h2, h3]
    decide
  · exact absurd h3 (by decide)

/-- Counterexample to C15 as stated: with the key map `dupMap`, `('a', 0)` is
latched and the engine is Debouncing; a tick whose scan yields `('a', 1)`, a
pair that differs from the latched one, does not treat the key as released. -/
theorem differing_modifier_not_released :
    Reachable dupMap latchedPlainA ∧
    latchedPlainA.bstate = BSTATE_FIRST ∧
    latchedPlainA.keyval_store = 97 ∧ latchedPlainA.modifier_store = 0 ∧
    (kbscan dupMap ctrlA latchedPlainA.rows 0).ret = 97 ∧
    (kbscan dupMap ctrlA latchedPlainA.rows 0).modifier = 1 ∧
    ((kbscan dupMap ctrlA latchedPlainA.rows 0).ret,
        (kbscan dupMap ctrlA latchedPlainA.rows 0).modifier) ≠
      (latchedPlainA.keyval_store, latchedPlainA.modifier_store) ∧
    (press_handler dupMap ctrlA latchedPlainA).bstate = BSTATE_FIRST ∧
    (press_handler dupMap ctrlA latchedPlainA).isattached = 1 ∧
    (press_handler dupMap ctrlA latchedPlainA).ticker = true :=
  ⟨reachable_run dupMap _ _ (Reachable.init 0), by decide, by decide, by decide, by decide,
    by decide, by decide, by decide, by decide, by decide⟩

/-- Witness of C15: with the default map, `five` latched and Debouncing; the
tick that scans no key releases. -/
theorem release_iff_char_differs_witness :
    (press_handler km1 nokey (heldState 1)).bstate = BSTATE_IDLE ∧
    (press_handler km1 nokey (heldState 1)).isattached = 0 ∧
    (press_handler km1 nokey (heldState 1)).ticker = false :=
  ⟨(release_iff_char_differs km1 nokey (heldState 1) (Or.inl rfl)).1.mpr (by decide),
    (release_iff_char_differs km1 nokey (heldState 1) (Or.inl rfl)).2.1 (by decide)⟩

/-- Witness of C16: a tick taken with a request pending keeps it pending. -/
theorem frame_of_loop_and_tick_witness :
    pendingRepeat.dosend = 1 ∧ (press_handler km1 nokey pendingRepeat).dosend = 1 :=
  ⟨by decide, (frame_of_loop_and_tick km1 nokey pendingRepeat).2.2.2.2.2 (by decide)⟩

/-- Witness of C17: the reachable state `pressedFive`, with a key attached. -/
theorem reachable_attached_iff_ticker_witness :
    (pressedFive.ticker = true ↔ pressedFive.isattached = 1) ∧
    (pressedFive.bstate ≠ BSTATE_IDLE → pressedFive.isattached = 1) ∧
    (pressedFive.isattached = 0 → pressedFive.bstate = BSTATE_IDLE) :=
  ⟨(reachable_attached_iff_ticker km1 pressedFive (Reachable.loop five (Reachable.init 0))).1,
    (reachable_attached_iff_ticker km1 pressedFive (Reachable.loop five (Reachable.init 0))).2.1,
    (reachable_attached_iff_ticker km1 pressedFive
      (Reachable.loop five (Reachable.init 0))).2.2.1⟩

/-- Witness of C18: the reachable state `releasedLate`, in which the counter
is at the bound, `101`. -/
theorem reachable_tick_count_bound_witness :
    releasedLate.tick_count = 101 ∧
    releasedLate.tick_count ≤ FIRST_WAIT_NUM + 1 ∧
    (releasedLate.tick_count + 1) % UINT_MOD = releasedLate.tick_count + 1 :=
  ⟨by decide,
    (reachable_tick_count_bound km1 releasedLate
      (Reachable.tick nokey (heldState_reachable 102) rfl)).1,
    (reachable_tick_count_bound km1 releasedLate
      (Reachable.tick nokey (heldState_reachable 102) rfl)).2.1⟩

/-- Witness of C19: the dormant states `afterShortPress` and
`afterLongerPress` differ only in `tick_count`; a new press of `ctrlA` gives
the same trace from both, and equal states from its first tick on. -/
theorem press_cycle_ignores_leftovers_witness :
    afterShortPress.tick_count ≠ afterLongerPress.tick_count ∧
    (run km1 newPress afterShortPress).sent = (run km1 newPress afterLongerPress).sent ∧
    run km1 newPress afterShortPress = run km1 newPress afterLongerPress :=
  ⟨by decide!,
    (press_cycle_ignores_leftovers km1 afterShortPress afterLongerPress newPress
      (by decide!) (by decide!) (by decide!) (by decide!) (by unfold staleOnly; decide!)).2.1,
    (press_cycle_ignores_leftovers km1 afterShortPress afterLongerPress newPress
      (by decide!) (by decide!) (by decide!) (by decide!) (by unfold staleOnly; decide!)).2.2
      [Step.loop ctrlA] ctrlA [Step.loop ctrlA] rfl (by decide!)⟩

end UsbKeypad
